import Mathlib

/-!
The gmf binding `sws_go112.go`

Shallow embedding of the cgo preamble helpers (`gmf_rotate_rgba_180`,
`gmf_scale_rgba`) and of the Go layer (`NewSwsCtx`, `NewPicSwsCtx`,
`SwsCtx.Scale`, `DefaultRescaler`) of `src/sws_go112.go`.

C `int` values are mathematical integers; every arithmetic result is checked
against the 32-bit range and a result outside it is the fault `overflow`
(signed overflow is undefined in C).  The pixel buffer is a list of 32-bit
words; a load or store outside the list is the fault `outOfBounds`.

Go frame pointers are addresses into a heap of frame objects, so that a list
can hold the same frame twice; a pointer can be nil and so can the `avFrame`
field of a frame.  libswscale and the frame allocator are parameters (`Env`).
-/

namespace Gmf

/-- One RGBA pixel, seen as the `uint32_t` word the rotator moves around. -/
abbrev Pixel := Nat

/-- Ways in which the C helpers can leave defined behaviour. -/
inductive Fault where
  | overflow
  | outOfBounds
  | nullDeref
  | outOfFuel
deriving DecidableEq, Repr

def INT_MIN : Int := -2147483648

def INT_MAX : Int := 2147483647

/-- Result of a C `int` operation: the value when it fits, a fault otherwise. -/
def int32 (z : Int) : Except Fault Int :=
  if INT_MIN ≤ z ∧ z ≤ INT_MAX then .ok z else .error .overflow

/-- The memory behind `src`: the words of the buffer and the log of the
indices that were loaded or stored, most recent first. -/
structure Mem where
  cells : List Pixel
  touched : List Int
deriving DecidableEq, Repr

/-- Evaluation of `src[idx]` as an rvalue. -/
def Mem.load (m : Mem) (idx : Int) : Except Fault (Pixel × Mem) :=
  if 0 ≤ idx then
    match m.cells[idx.toNat]? with
    | some p => .ok (p, { m with touched := idx :: m.touched })
    | none => .error .outOfBounds
  else .error .outOfBounds

/-- Evaluation of `src[idx] = p`. -/
def Mem.store (m : Mem) (idx : Int) (p : Pixel) : Except Fault Mem :=
  if 0 ≤ idx ∧ idx.toNat < m.cells.length then
    .ok { cells := m.cells.set idx.toNat p, touched := idx :: m.touched }
  else .error .outOfBounds

/-- The three assignments of the loop body:
`tmp = src[idx1]; src[idx1] = src[idx2]; src[idx2] = tmp;`. -/
def swapWords (m : Mem) (idx1 idx2 : Int) : Except Fault Mem := do
  let (tmp, m1) ← m.load idx1
  let (v, m2) ← m1.load idx2
  let m3 ← m2.store idx1 v
  m3.store idx2 tmp

/-- Inner loop of `gmf_rotate_rgba_180`:
`for (x = 0, y = width - 1; x < width; x++, y--) { ... }`, entered at the loop
test with the current `x` and `y`. -/
def rowLoop : Nat → Int → Int → Int → Int → Int → Int → Mem → Except Fault Mem
  | 0, _, _, _, _, _, _, _ => .error .outOfFuel
  | fuel + 1, i, j, stride, width, x, y, m =>
    if x < width then do
      let a ← int32 (i * stride)
      let idx1 ← int32 (a + x)
      let b ← int32 (j * stride)
      let idx2 ← int32 (b + y)
      let m4 ← swapWords m idx1 idx2
      let x' ← int32 (x + 1)
      let y' ← int32 (y - 1)
      rowLoop fuel i j stride width x' y' m4
    else .ok m

/-- Outer loop of `gmf_rotate_rgba_180`:
`for (i = 0, j = height - 1; i < j; i++, j--) { ... }`, entered at the loop
test with the current `i` and `j`; `rowFuel` is the budget of each inner loop. -/
def rotLoop (rowFuel : Nat) : Nat → Int → Int → Int → Int → Mem → Except Fault Mem
  | 0, _, _, _, _, _ => .error .outOfFuel
  | fuel + 1, i, j, stride, width, m =>
    if i < j then do
      let y0 ← int32 (width - 1)
      let m1 ← rowLoop rowFuel i j stride width 0 y0 m
      let i' ← int32 (i + 1)
      let j' ← int32 (j - 1)
      rotLoop rowFuel fuel i' j' stride width m1
    else .ok m

/-- The C helper `gmf_rotate_rgba_180(rgba, width, height)`, with `src` the
contents of `rgba[0]` read as 32-bit words.  `fuel` bounds the number of
loop tests of each loop. -/
def gmf_rotate_rgba_180 (fuel : Nat) (src : List Pixel) (width height : Int) :
    Except Fault Mem := do
  let stride := width
  let j0 ← int32 (height - 1)
  rotLoop fuel fuel 0 j0 stride width { cells := src, touched := [] }

/-- The buffer a call leaves behind. -/
def rotated (fuel : Nat) (src : List Pixel) (width height : Int) :
    Except Fault (List Pixel) :=
  (gmf_rotate_rgba_180 fuel src width height).map Mem.cells


/-! ## The Go layer -/

/-- The conversion `C.int(v)` of a Go `int`: the low 32 bits, read as a signed
number. -/
def cInt (v : Int) : Int := (v + 2147483648) % 4294967296 - 2147483648

/-- Address of a native `struct SwsContext`. -/
abbrev SwsContext := Nat

/-- Modelled from the spec: `Frame` is declared in another file of the package;
it is the multi-plane image buffer with its metadata (width, height, pixel
format, presentation and decode timestamps).  `data` is plane 0 read as 32-bit
words and `linesize` its stride.  A value of this type is the native frame
behind the field `avFrame`; a Go `*Frame` is an `Option (Option Frame)`: `none`
for the nil pointer, `some none` for a frame whose `avFrame` is nil. -/
structure Frame where
  width : Int
  height : Int
  format : Int
  pts : Int
  pktDts : Int
  data : List Pixel
  linesize : Int
deriving DecidableEq, Repr

/-- Modelled from the spec: `CodecCtx` is declared in another file of the
package; only what `Width()`, `Height()` and `PixFmt()` return is kept. -/
structure CodecCtx where
  width : Int
  height : Int
  pixFmt : Int
deriving DecidableEq, Repr

/-- The Go struct `SwsCtx`; `swsCtx` is `none` for a nil handle. -/
structure SwsCtx where
  swsCtx : Option SwsContext
  width : Int
  height : Int
  pixfmt : Int
deriving DecidableEq, Repr

/-- Values of the Go type `error` this file creates. -/
inductive GoError where
  /-- `fmt.Errorf("error creating sws context\n")` -/
  | creatingSwsContext
  /-- `fmt.Errorf("error allocation tmp frame - %s", err)` -/
  | allocationTmpFrame (err : String)
deriving DecidableEq, Repr

/-- Ways in which a Go call can end without returning. -/
inductive Abort where
  /-- Run-time panic: nil pointer dereference. -/
  | nilDeref
  /-- Run-time panic: index out of range. -/
  | indexOutOfRange
  /-- The C helper left defined behaviour. -/
  | undefinedC (f : Fault)
deriving DecidableEq, Repr

/-- What the code calls but does not define: libswscale and the allocator
behind `Frame.ImgAlloc`. -/
structure Env where
  /-- Native `sws_getContext(srcW, srcH, srcFormat, dstW, dstH, dstFormat, flags,
  NULL, NULL, NULL)`; `none` is the null pointer. -/
  sws_getContext : Int → Int → Int → Int → Int → Int → Int → Option SwsContext
  /-- Native `sws_scale(ctx, srcSlice, srcStride, srcSliceY, srcSliceH, dst,
  dstStride)`: the contents of destination plane 0 after the call. -/
  sws_scale : Option SwsContext → List Pixel → Int → Int → Int → Frame → List Pixel
  /-- Modelled from the spec: the per-frame output allocation `Frame.ImgAlloc`,
  declared in another file of the package.  The `k`-th call of a batch, made on
  frame `f`, either fails with an error text or yields the plane and its
  stride. -/
  imgAlloc : Nat → Frame → Except String (List Pixel × Int)
  /-- Contents of plane 0 after a call of `gmf_rotate_rgba_180` that left defined
  behaviour with fault `f` on plane `data` (an index outside the plane or outside
  `int`): the C code has no check and returns to its caller, and what the plane
  then holds is not determined by this file. -/
  rotate_undefined : Fault → List Pixel → Int → Int → List Pixel

/-- Modelled from the spec: `NewFrame()`, a fresh frame with zeroed fields. -/
def NewFrame : Frame :=
  { width := 0, height := 0, format := 0, pts := 0, pktDts := 0, data := [], linesize := 0 }

/-- Modelled from the spec: `Frame.SetWidth`. -/
def Frame.SetWidth (f : Frame) (val : Int) : Frame := { f with width := val }

/-- Modelled from the spec: `Frame.SetHeight`. -/
def Frame.SetHeight (f : Frame) (val : Int) : Frame := { f with height := val }

/-- Modelled from the spec: `Frame.SetFormat`. -/
def Frame.SetFormat (f : Frame) (val : Int) : Frame := { f with format := val }

/-- Modelled from the spec: `Frame.SetPts`. -/
def Frame.SetPts (f : Frame) (val : Int) : Frame := { f with pts := val }

/-- Modelled from the spec: `Frame.SetPktDts`. -/
def Frame.SetPktDts (f : Frame) (val : Int) : Frame := { f with pktDts := val }

/-- Modelled from the spec: `Frame.Pts`. -/
def Frame.Pts (f : Frame) : Int := f.pts

/-- Modelled from the spec: `Frame.PktDts`. -/
def Frame.PktDts (f : Frame) : Int := f.pktDts

/-- Modelled from the spec: `Frame.Width`. -/
def Frame.Width (f : Frame) : Int := f.width

/-- Modelled from the spec: `Frame.Height`. -/
def Frame.Height (f : Frame) : Int := f.height

/-- Modelled from the spec: `Frame.ImgAlloc`, the `k`-th allocation of a batch. -/
def Frame.ImgAlloc (env : Env) (k : Nat) (f : Frame) : Except String Frame :=
  match env.imgAlloc k f with
  | .ok (plane, stride) => .ok { f with data := plane, linesize := stride }
  | .error err => .error err

/-- `NewSwsCtx`: the Go result pair `(*SwsCtx, error)`. -/
def NewSwsCtx (env : Env) (srcW srcH srcPixFmt dstW dstH dstPixFmt method : Int) :
    Option SwsCtx × Option GoError :=
  match env.sws_getContext (cInt srcW) (cInt srcH) srcPixFmt (cInt dstW) (cInt dstH)
      dstPixFmt (cInt method) with
  | none => (none, some .creatingSwsContext)
  | some ctx =>
    (some { swsCtx := some ctx, width := dstW, height := dstH, pixfmt := dstPixFmt }, none)

/-- `NewPicSwsCtx`: the struct literal names `swsCtx` only, the other fields
keep their zero value. -/
def NewPicSwsCtx (env : Env) (srcWidth srcHeight srcPixFmt : Int) (dst : CodecCtx)
    (method : Int) : Option SwsCtx :=
  match env.sws_getContext (cInt srcWidth) (cInt srcHeight) srcPixFmt (cInt dst.width)
      (cInt dst.height) dst.pixFmt (cInt method) with
  | none => none
  | some ctx => some { swsCtx := some ctx, width := 0, height := 0, pixfmt := 0 }

/-- Loop-test budget handed to the rotator for a `width` by `height` image. -/
def rotFuel (width height : Int) : Nat := (max width height).toNat + 1

/-- Address of a Go `Frame` object. -/
abbrev Addr := Nat

/-- The Go `Frame` objects a call can reach: `heap a` is the native frame behind
the field `avFrame` of the object at address `a`, `none` when that field is
nil. -/
abbrev Heap := Addr → Option Frame

/-- Whether the pointer `p` is non-nil and points to a frame whose `avFrame` is
non-nil. -/
def live (heap : Heap) (p : Option Addr) : Bool := (p.bind heap).isSome

/-- `SwsCtx.Scale(src, dst, rotateRgba180)`: the native frame behind `dst` after
the call.  `&src.avFrame.data` and `&dst.avFrame.data` panic on a nil frame and
on a frame whose `avFrame` is nil.  The rotator has no bounds check: when it
leaves defined behaviour the call still returns, with the plane the environment
gives. -/
def SwsCtx.Scale (env : Env) (ctx : SwsCtx) (src dst : Option (Option Frame))
    (rotateRgba180 : Bool) : Except Abort Frame :=
  match src with
  | none => .error .nilDeref
  | some none => .error .nilDeref
  | some (some s) =>
    match dst with
    | none => .error .nilDeref
    | some none => .error .nilDeref
    | some (some d) =>
      let dst1 := { d with
        data := env.sws_scale ctx.swsCtx s.data s.linesize 0 (cInt s.Height) d }
      if rotateRgba180 then
        match gmf_rotate_rgba_180 (rotFuel (cInt dst1.Width) (cInt dst1.Height)) dst1.data
            (cInt dst1.Width) (cInt dst1.Height) with
        | .ok m => .ok { dst1 with data := m.cells }
        | .error f =>
          .ok { dst1 with
            data := env.rotate_undefined f dst1.data (cInt dst1.Width) (cInt dst1.Height) }
      else .ok dst1

/-- What a run of `DefaultRescaler` does to the frames, in program order. -/
inductive Event where
  /-- `tmp.ImgAlloc()` was called on `tmp` for input index `i`; `ok` tells
  whether it succeeded. -/
  | imgAlloc (i : Nat) (tmp : Frame) (ok : Bool)
  /-- `ctx.Scale(frames[i], tmp, rotateRgba180)` returned. -/
  | scale (i : Nat)
  /-- `Free()` was called on the frame object at address `a`. -/
  | free (a : Addr)
deriving DecidableEq, Repr

/-- How the first loop of `DefaultRescaler` ends. -/
inductive Flow where
  /-- The range was exhausted. -/
  | done (result : List Frame) (log : List Event)
  /-- `return nil, fmt.Errorf(...)`. -/
  | ret (err : GoError) (log : List Event)
  /-- The goroutine panicked. -/
  | abort (a : Abort) (log : List Event)
deriving DecidableEq, Repr

/-- The frame
`NewFrame().SetWidth(ctx.width).SetHeight(ctx.height).SetFormat(ctx.pixfmt)`. -/
def newTmp (ctx : SwsCtx) : Frame :=
  ((NewFrame.SetWidth ctx.width).SetHeight ctx.height).SetFormat ctx.pixfmt

/-- First loop of `DefaultRescaler`, `for i, _ := range frames { ... }`, at
index `i` with `rest = frames[i:]`; an entry of `frames` is `none` for a nil
pointer and `some a` for the frame object at address `a`. -/
def scaleLoop (env : Env) (heap : Heap) (ctx : SwsCtx) (rotateRgba180 : Bool) :
    Nat → List (Option Addr) → List Frame → List Event → Flow
  | _, [], result, log => .done result log
  | i, p :: rest, result, log =>
    let tmp := newTmp ctx
    match tmp.ImgAlloc env i with
    | .error err => .ret (.allocationTmpFrame err) (log ++ [.imgAlloc i tmp false])
    | .ok tmp1 =>
      match ctx.Scale env (p.map heap) (some (some tmp1)) rotateRgba180 with
      | .error a => .abort a (log ++ [.imgAlloc i tmp true])
      | .ok tmp2 =>
        -- `frames[i].Pts()`; `Scale` has already dereferenced `frames[i].avFrame`
        match p.bind heap with
        | none => .abort .nilDeref (log ++ [.imgAlloc i tmp true, .scale i])
        | some fr =>
          scaleLoop env heap ctx rotateRgba180 (i + 1) rest
            (result ++ [(tmp2.SetPts fr.Pts).SetPktDts fr.PktDts])
            (log ++ [.imgAlloc i tmp true, .scale i])

/-- Second loop of `DefaultRescaler`,
`for i := 0; i < len(frames); i++ { if frames[i] != nil { frames[i].Free() } }`,
with `rest = frames[i:]`. -/
def freeLoop : List (Option Addr) → List Event → List Event
  | [], log => log
  | none :: rest, log => freeLoop rest log
  | some a :: rest, log => freeLoop rest (log ++ [.free a])

/-- Result of a call of `DefaultRescaler`: the Go result pair
`([]*Frame, error)` when the call returns, and the events of the call. -/
structure Outcome where
  value : Except Abort (Option (List Frame) × Option GoError)
  log : List Event

/-- `DefaultRescaler(ctx, frames, rotateRgba180)`, the frame objects behind the
pointers of `frames` being those of `heap`. -/
def DefaultRescaler (env : Env) (heap : Heap) (ctx : SwsCtx) (frames : List (Option Addr))
    (rotateRgba180 : Bool) : Outcome :=
  match scaleLoop env heap ctx rotateRgba180 0 frames [] [] with
  | .abort a log => { value := .error a, log := log }
  | .ret err log => { value := .ok (none, some err), log := log }
  | .done result log => { value := .ok (some result, none), log := freeLoop frames log }

/-- What a call of the C helper `gmf_scale_rgba` leaves behind: the lines written
to `stderr` and, unless the call faults, the contents of `frame->data[0]`. -/
structure ScaleRgbaRun where
  stderr : List String
  result : Except Fault (List Pixel)

/-- The C helper `gmf_scale_rgba(ctx, rgba, width, height, frame)`; `frame` is
`none` for a null pointer. -/
def gmf_scale_rgba (env : Env) (ctx : Option SwsContext) (rgba : List Pixel)
    (width height : Int) (frame : Option Frame) : ScaleRgbaRun :=
  let stderr := if frame.isNone then ["[gmf_scale_rgba] frame is NULL\n"] else []
  match int32 (4 * width) with
  | .error e => { stderr := stderr, result := .error e }
  | .ok inStride =>
    match frame with
    | none => { stderr := stderr, result := .error .nullDeref }
    | some fr => { stderr := stderr, result := .ok (env.sws_scale ctx rgba inStride 0 height fr) }

/-- What a call of `SwsCtx.ScaleRGBA` leaves behind: the lines written to
`stderr` and, when the call returns, the contents of plane 0 of `dst`. -/
structure ScaleRGBARun where
  stderr : List String
  result : Except Abort (List Pixel)

/-- `SwsCtx.ScaleRGBA(src, dst)`.  `pix` is `src.Pix` and `maxX`, `maxY` are
`src.Bounds().Max`; `dst` is `none` for a nil `*Frame` and `some none` for a
frame whose `avFrame` is nil.  The arguments of the C call are evaluated left to
right. -/
def SwsCtx.ScaleRGBA (env : Env) (this : SwsCtx) (pix : List Pixel) (maxX maxY : Int)
    (dst : Option (Option Frame)) : ScaleRGBARun :=
  let width := maxX
  let height := maxY
  match pix with
  | [] => { stderr := [], result := .error .indexOutOfRange }
  | _ :: _ =>
    match dst with
    | none => { stderr := [], result := .error .nilDeref }
    | some avFrame =>
      let run := gmf_scale_rgba env this.swsCtx pix (cInt width) (cInt height) avFrame
      match run.result with
      | .ok plane => { stderr := run.stderr, result := .ok plane }
      | .error f => { stderr := run.stderr, result := .error (.undefinedC f) }

/-! ## Traces and sample environments used to state the claims -/

/-- The events of `n` iterations of the first loop that all succeed, from
index `i` on: an allocation on `tmp` and a scale call for each index. -/
def okEvents (tmp : Frame) : Nat → Nat → List Event
  | _, 0 => []
  | i, n + 1 => .imgAlloc i tmp true :: .scale i :: okEvents tmp (i + 1) n

/-- The calls of `Free` of the second loop on `frames`: one for every non-nil
entry, in order. -/
def freeEvents : List (Option Addr) → List Event
  | [] => []
  | none :: rest => freeEvents rest
  | some a :: rest => .free a :: freeEvents rest

/-- An environment in which the factory returns the handle `1`, `sws_scale`
leaves the destination plane as it is and every allocation yields a plane of
`width * height` words. -/
def envRgba : Env :=
  { sws_getContext := fun _ _ _ _ _ _ _ => some 1
    sws_scale := fun _ _ _ _ _ dst => dst.data
    imgAlloc := fun _ f => .ok (List.replicate (f.width * f.height).toNat 0, f.width)
    rotate_undefined := fun _ plane _ _ => plane }

/-- An environment for a one-byte-per-pixel destination format: every
allocation yields a plane of `width * height / 4` words. -/
def envGray : Env :=
  { sws_getContext := fun _ _ _ _ _ _ _ => some 1
    sws_scale := fun _ _ _ _ _ dst => dst.data
    imgAlloc := fun _ f => .ok (List.replicate ((f.width * f.height) / 4).toNat 0, f.width / 4)
    rotate_undefined := fun _ plane _ _ => plane }

/-- An environment in which the allocation for input index `2` fails. -/
def envFailAt2 : Env :=
  { sws_getContext := fun _ _ _ _ _ _ _ => some 1
    sws_scale := fun _ _ _ _ _ dst => dst.data
    imgAlloc := fun k f =>
      if k = 2 then .error "ENOMEM"
      else .ok (List.replicate (f.width * f.height).toNat 0, f.width)
    rotate_undefined := fun _ plane _ _ => plane }

/-- An environment in which the factory returns the null pointer. -/
def envNoCtx : Env :=
  { sws_getContext := fun _ _ _ _ _ _ _ => none
    sws_scale := fun _ _ _ _ _ dst => dst.data
    imgAlloc := fun _ f => .ok (List.replicate (f.width * f.height).toNat 0, f.width)
    rotate_undefined := fun _ plane _ _ => plane }

/-- An input frame with presentation timestamp `t` and decode timestamp `d`. -/
def frameAt (t d : Int) : Frame :=
  { width := 4, height := 4, format := 0, pts := t, pktDts := d, data := [], linesize := 0 }

/-- Frame objects for the examples: the object at address `0` has a nil
`avFrame`; the object at address `a > 0` holds a frame with presentation
timestamp `10 * a` and decode timestamp `10 * a + 1`. -/
def heapTs : Heap :=
  fun a => if a = 0 then none else some (frameAt (10 * a) (10 * a + 1))

/-! ## Arithmetic and memory lemmas -/

theorem int32_ok (z : Int) (h1 : INT_MIN ≤ z) (h2 : z ≤ INT_MAX) : int32 z = .ok z := by
  simp [int32, h1, h2]

theorem int32_ofNat (n : Nat) (h : n ≤ 2147483647) : int32 (n : Int) = .ok (n : Int) := by
  apply int32_ok <;> simp only [INT_MIN, INT_MAX] <;> omega

theorem ok_bind {α β : Type} (a : α) (k : α → Except Fault β) :
    (Except.ok a >>= k) = k a := rfl

theorem swapWords_ok (m : Mem) (a b : Nat) (ha : a < m.cells.length)
    (hb : b < m.cells.length) :
    swapWords m (a : Int) (b : Int) =
      .ok { cells := (m.cells.set a m.cells[b]).set b m.cells[a],
            touched := (b : Int) :: (a : Int) :: (b : Int) :: (a : Int) :: m.touched } := by
  simp [swapWords, Mem.load, Mem.store, bind, Except.bind, ha, hb]

theorem swapped_getElem? (l : List Pixel) (a b : Nat) (ha : a < l.length)
    (hb : b < l.length) (p : Nat) :
    ((l.set a l[b]).set b l[a])[p]? =
      if p = b then l[a]? else if p = a then l[b]? else l[p]? := by
  simp only [List.getElem?_set, List.length_set]
  split_ifs <;> first
    | rfl
    | (exfalso; omega)
    | (symm; exact List.getElem?_eq_getElem _)

theorem idx_congr (l : List Pixel) {a b : Nat} (h : a = b) : l[a]? = l[b]? := by
  rw [h]

theorem row_gap (w r i : Nat) (hr : r ≠ i) :
    r * w + w ≤ i * w ∨ i * w + w ≤ r * w := by
  rcases Nat.lt_or_gt_of_ne hr with h1 | h1
  · have := Nat.mul_le_mul_right w (Nat.succ_le_of_lt h1)
    rw [Nat.succ_mul] at this
    exact Or.inl this
  · have := Nat.mul_le_mul_right w (Nat.succ_le_of_lt h1)
    rw [Nat.succ_mul] at this
    exact Or.inr this

theorem row_sep (w r i c x : Nat) (hr : r ≠ i) (hc : c < w) (hx : x < w) :
    r * w + c ≠ i * w + x := by
  intro h
  rcases Nat.lt_or_gt_of_ne hr with h1 | h1
  · have := Nat.mul_le_mul_right w (Nat.succ_le_of_lt h1)
    rw [Nat.succ_mul] at this
    omega
  · have := Nat.mul_le_mul_right w (Nat.succ_le_of_lt h1)
    rw [Nat.succ_mul] at this
    omega

/-- What the inner loop does to row pair `(i, j)` from column `x` on: the words
of row `i` at columns `x ..` are exchanged with their mirror images in row `j`. -/
theorem rowLoop_spec (w i j S : Nat) (hij : i < j) (hS : (j + 1) * w ≤ S)
    (hmax : S ≤ 2147483648) :
    ∀ (n x fuel : Nat) (m : Mem), x + n = w → n < fuel → S ≤ m.cells.length →
    ∃ m', rowLoop fuel i j w w x ((w : Int) - 1 - x) m = .ok m' ∧
      m'.cells.length = m.cells.length ∧
      (∀ r c, c < w → m'.cells[r * w + c]? =
          if r = i ∧ x ≤ c then m.cells[j * w + (w - 1 - c)]?
          else if r = j ∧ c + x < w then m.cells[i * w + (w - 1 - c)]?
          else m.cells[r * w + c]?) ∧
      (∀ p, S ≤ p → m'.cells[p]? = m.cells[p]?) ∧
      (∀ t ∈ m'.touched, t ∈ m.touched ∨
        ∃ c, c < w ∧ (t = ((i * w + c : Nat) : Int) ∨ t = ((j * w + c : Nat) : Int))) := by
  have hiw : i * w + w ≤ j * w := by
    have := Nat.mul_le_mul_right w (Nat.succ_le_of_lt hij)
    rw [Nat.succ_mul] at this
    exact this
  have hjw : j * w + w ≤ S := by
    rw [Nat.succ_mul] at hS
    exact hS
  intro n
  induction n with
  | zero =>
    intro x fuel m hx hf _
    obtain ⟨f, rfl⟩ : ∃ f, fuel = f + 1 := ⟨fuel - 1, by omega⟩
    have hxw : x = w := by omega
    subst hxw
    refine ⟨m, ?_, rfl, ?_, fun _ _ => rfl, fun t ht => Or.inl ht⟩
    · simp [rowLoop]
    · intro r c hc
      have h1 : ¬ (r = i ∧ x ≤ c) := by omega
      have h2 : ¬ (r = j ∧ c + x < x) := by omega
      simp [h1, h2]
  | succ n ih =>
    intro x fuel m hx hf hlen
    obtain ⟨f, rfl⟩ : ∃ f, fuel = f + 1 := ⟨fuel - 1, by omega⟩
    have hxw : x < w := by omega
    have ha : i * w + x < m.cells.length := by omega
    have hb : j * w + (w - 1 - x) < m.cells.length := by omega
    have e1 : int32 ((i : Int) * (w : Int)) = .ok ((i * w : Nat) : Int) := by
      rw [← Nat.cast_mul]; exact int32_ofNat _ (by omega)
    have e2 : int32 (((i * w : Nat) : Int) + (x : Int)) = .ok ((i * w + x : Nat) : Int) := by
      rw [← Nat.cast_add]; exact int32_ofNat _ (by omega)
    have e3 : int32 ((j : Int) * (w : Int)) = .ok ((j * w : Nat) : Int) := by
      rw [← Nat.cast_mul]; exact int32_ofNat _ (by omega)
    have e4 : int32 (((j * w : Nat) : Int) + ((w : Int) - 1 - (x : Int))) =
        .ok ((j * w + (w - 1 - x) : Nat) : Int) := by
      have : ((j * w : Nat) : Int) + ((w : Int) - 1 - (x : Int)) =
          ((j * w + (w - 1 - x) : Nat) : Int) := by
        push_cast [Nat.sub_sub, Nat.cast_sub (show 1 + x ≤ w by omega)]; ring
      rw [this]; exact int32_ofNat _ (by omega)
    have e5 : int32 ((x : Int) + 1) = .ok ((x + 1 : Nat) : Int) := by
      rw [show ((x : Int) + 1) = ((x + 1 : Nat) : Int) by push_cast; rfl]
      exact int32_ofNat _ (by omega)
    have e6 : int32 ((w : Int) - 1 - (x : Int) - 1) = .ok ((w : Int) - 1 - ((x + 1 : Nat) : Int)) := by
      rw [show (w : Int) - 1 - (x : Int) - 1 = (w : Int) - 1 - ((x + 1 : Nat) : Int) by
        push_cast; ring]
      apply int32_ok <;> simp only [INT_MIN, INT_MAX] <;> push_cast <;> omega
    obtain ⟨m', hrun, hlen', hcells, hfar, htouch⟩ :=
      ih (x + 1) f
        { cells := (m.cells.set (i * w + x) m.cells[j * w + (w - 1 - x)]).set
            (j * w + (w - 1 - x)) m.cells[i * w + x],
          touched := ((j * w + (w - 1 - x) : Nat) : Int) :: ((i * w + x : Nat) : Int) ::
            ((j * w + (w - 1 - x) : Nat) : Int) :: ((i * w + x : Nat) : Int) :: m.touched }
        (by omega) (by omega) (by simpa using hlen)
    refine ⟨m', ?_, ?_, ?_, ?_, ?_⟩
    · have hlt : (x : Int) < (w : Int) := by exact_mod_cast hxw
      rw [rowLoop, if_pos hlt, e1, ok_bind, e2, ok_bind, e3, ok_bind, e4, ok_bind,
        swapWords_ok m _ _ ha hb, ok_bind, e5, ok_bind, e6, ok_bind]
      exact hrun
    · simpa using hlen'
    · intro r c hc
      rw [hcells r c hc]
      simp only [swapped_getElem? m.cells _ _ ha hb]
      by_cases hri : r = i
      · subst hri
        split_ifs <;> first
          | rfl
          | (exfalso; omega)
          | (apply idx_congr; omega)
      · by_cases hrj : r = j
        · subst hrj
          split_ifs <;> first
            | rfl
            | (exfalso; omega)
            | (apply idx_congr; omega)
        · have s1 := row_gap w r i hri
          have s2 := row_gap w r j hrj
          split_ifs <;> first
            | rfl
            | (exfalso; omega)
    · intro p hp
      rw [hfar p hp]
      simp only [swapped_getElem? m.cells _ _ ha hb]
      rw [if_neg (by omega), if_neg (by omega)]
    · intro t ht
      rcases htouch t ht with h | h
      · simp only [List.mem_cons] at h
        rcases h with h | h | h | h | h
        · exact Or.inr ⟨w - 1 - x, by omega, Or.inr h⟩
        · exact Or.inr ⟨x, hxw, Or.inl h⟩
        · exact Or.inr ⟨w - 1 - x, by omega, Or.inr h⟩
        · exact Or.inr ⟨x, hxw, Or.inl h⟩
        · exact Or.inl h
      · exact Or.inr h

/-- What the outer loop does from the row pair `(i, j)` inwards, where
`i + j = hgt - 1`: every row between `i` and `j` except the row that is its own
mirror image receives the mirrored words of the opposite row. -/
theorem rotLoop_spec (w hgt rowFuel : Nat) (hmax : w * hgt ≤ 2147483648)
    (hh : hgt ≤ 2147483647) (hrf : w < rowFuel) :
    ∀ (n i j fuel : Nat) (m : Mem), i + j + 1 = hgt → j + 1 ≤ i + 2 * n → n < fuel →
      w * hgt ≤ m.cells.length →
    ∃ m', rotLoop rowFuel fuel i j w w m = .ok m' ∧
      m'.cells.length = m.cells.length ∧
      (∀ r c, c < w → m'.cells[r * w + c]? =
          if i ≤ r ∧ r ≤ j ∧ 2 * r + 1 ≠ hgt then m.cells[(hgt - 1 - r) * w + (w - 1 - c)]?
          else m.cells[r * w + c]?) ∧
      (∀ p, w * hgt ≤ p → m'.cells[p]? = m.cells[p]?) ∧
      (∀ t ∈ m'.touched, t ∈ m.touched ∨
        ∃ r c, c < w ∧ i ≤ r ∧ r ≤ j ∧ 2 * r + 1 ≠ hgt ∧ t = ((r * w + c : Nat) : Int)) := by
  intro n
  induction n with
  | zero =>
    intro i j fuel m _ hn hf _
    obtain ⟨f, rfl⟩ : ∃ f, fuel = f + 1 := ⟨fuel - 1, by omega⟩
    have hlt : ¬ ((i : Int) < (j : Int)) := by omega
    refine ⟨m, ?_, rfl, ?_, fun _ _ => rfl, fun t ht => Or.inl ht⟩
    · rw [rotLoop, if_neg hlt]
    · intro r c _
      rw [if_neg (by omega)]
  | succ n ih =>
    intro i j fuel m hsum hn hf hlen
    obtain ⟨f, rfl⟩ : ∃ f, fuel = f + 1 := ⟨fuel - 1, by omega⟩
    by_cases hij : i < j
    · have hjS : (j + 1) * w ≤ w * hgt := by
        rw [Nat.mul_comm w hgt]
        exact Nat.mul_le_mul_right w (by omega)
      have hiw : i * w + w ≤ j * w := by
        have := Nat.mul_le_mul_right w (Nat.succ_le_of_lt hij)
        rw [Nat.succ_mul] at this
        exact this
      have hjw : j * w + w ≤ w * hgt := by
        rw [Nat.succ_mul] at hjS
        exact hjS
      obtain ⟨m1, hrow, hlen1, hcells1, hfar1, htouch1⟩ :=
        rowLoop_spec w i j (w * hgt) hij hjS hmax w 0 rowFuel m (by omega) hrf hlen
      simp only [Nat.cast_zero, sub_zero] at hrow
      obtain ⟨m', hrun, hlen', hcells, hfar, htouch⟩ :=
        ih (i + 1) (j - 1) f m1 (by omega) (by omega) (by omega) (by omega)
      have e0 : int32 ((w : Int) - 1) = .ok ((w : Int) - 1) := by
        apply int32_ok <;> simp only [INT_MIN, INT_MAX] <;> omega
      have e1 : int32 ((i : Int) + 1) = .ok ((i + 1 : Nat) : Int) := by
        rw [show ((i : Int) + 1) = ((i + 1 : Nat) : Int) by push_cast; rfl]
        exact int32_ofNat _ (by omega)
      have e2 : int32 ((j : Int) - 1) = .ok ((j - 1 : Nat) : Int) := by
        rw [show ((j : Int) - 1) = ((j - 1 : Nat) : Int) by
          rw [Nat.cast_sub (by omega)]; rfl]
        exact int32_ofNat _ (by omega)
      have hlt : (i : Int) < (j : Int) := by exact_mod_cast hij
      refine ⟨m', ?_, by omega, ?_, ?_, ?_⟩
      · rw [rotLoop, if_pos hlt, e0, ok_bind, hrow, ok_bind, e1, ok_bind, e2, ok_bind]
        exact hrun
      · intro r c hc
        rw [hcells r c hc]
        by_cases h1 : i + 1 ≤ r ∧ r ≤ j - 1 ∧ 2 * r + 1 ≠ hgt
        · rw [if_pos h1, if_pos (by omega), hcells1 (hgt - 1 - r) (w - 1 - c) (by omega),
            if_neg (by omega), if_neg (by omega)]
        · rw [if_neg h1, hcells1 r c hc]
          by_cases hri : r = i
          · subst hri
            have hj : hgt - 1 - r = j := by omega
            rw [if_pos (by omega), if_pos (by omega), hj]
          · by_cases hrj : r = j
            · subst hrj
              have hi : hgt - 1 - r = i := by omega
              rw [if_neg (by omega), if_pos (by omega), if_pos (by omega), hi]
            · rw [if_neg (by omega), if_neg (by omega), if_neg (by omega)]
      · intro p hp
        rw [hfar p hp, hfar1 p hp]
      · intro t ht
        rcases htouch t ht with h | ⟨r, c, hc, h1, h2, h3, h4⟩
        · rcases htouch1 t h with h | ⟨c, hc, h | h⟩
          · exact Or.inl h
          · exact Or.inr ⟨i, c, hc, by omega, by omega, by omega, h⟩
          · exact Or.inr ⟨j, c, hc, by omega, by omega, by omega, h⟩
        · exact Or.inr ⟨r, c, hc, by omega, by omega, h3, h4⟩
    · have hlt : ¬ ((i : Int) < (j : Int)) := by omega
      refine ⟨m, ?_, rfl, ?_, fun _ _ => rfl, fun t ht => Or.inl ht⟩
      · rw [rotLoop, if_neg hlt]
      · intro r c _
        rw [if_neg (by omega)]

/-- Every word index below `w * hgt` splits into a row and a column. -/
theorem idx_split (w p : Nat) (hw : 0 < w) : ∃ r c, c < w ∧ p = r * w + c :=
  ⟨p / w, p % w, Nat.mod_lt _ hw, by rw [Nat.mul_comm]; exact (Nat.div_add_mod p w).symm⟩

theorem row_lt (w hgt r c : Nat) (h : r * w + c < w * hgt) : r < hgt := by
  by_contra hr
  have := Nat.mul_le_mul_left w (Nat.le_of_not_lt hr)
  rw [Nat.mul_comm w r] at this
  omega

theorem idx_lt (w hgt r c : Nat) (hc : c < w) (hr : r < hgt) : r * w + c < w * hgt := by
  have := Nat.mul_le_mul_right w (Nat.succ_le_of_lt hr)
  rw [Nat.succ_mul, Nat.mul_comm hgt w] at this
  omega

/-- Full description of a call on a buffer that holds at least `w * hgt` words,
for a height of at least one. -/
theorem rotate_spec (w hgt fuel : Nat) (src : List Pixel) (hh1 : 1 ≤ hgt)
    (hh : hgt ≤ 2147483647) (hmax : w * hgt ≤ 2147483648) (hfw : w < fuel)
    (hfh : hgt < fuel) (hlen : w * hgt ≤ src.length) :
    ∃ m, gmf_rotate_rgba_180 fuel src w hgt = .ok m ∧
      m.cells.length = src.length ∧
      (∀ r c, c < w → m.cells[r * w + c]? =
          if r < hgt ∧ 2 * r + 1 ≠ hgt then src[(hgt - 1 - r) * w + (w - 1 - c)]?
          else src[r * w + c]?) ∧
      (∀ p, w * hgt ≤ p → m.cells[p]? = src[p]?) ∧
      (∀ t ∈ m.touched,
        ∃ r c, c < w ∧ r < hgt ∧ 2 * r + 1 ≠ hgt ∧ t = ((r * w + c : Nat) : Int)) := by
  obtain ⟨m, hrun, hl, hcells, hfar, htouch⟩ :=
    rotLoop_spec w hgt fuel hmax hh hfw hgt 0 (hgt - 1) fuel { cells := src, touched := [] }
      (by omega) (by omega) hfh hlen
  have e0 : int32 ((hgt : Int) - 1) = .ok ((hgt - 1 : Nat) : Int) := by
    rw [show ((hgt : Int) - 1) = ((hgt - 1 : Nat) : Int) by
      rw [Nat.cast_sub (by omega)]; rfl]
    exact int32_ofNat _ (by omega)
  refine ⟨m, ?_, hl, ?_, hfar, ?_⟩
  · unfold gmf_rotate_rgba_180
    rw [e0, ok_bind]
    exact hrun
  · intro r c hc
    rw [hcells r c hc]
    by_cases h : r < hgt ∧ 2 * r + 1 ≠ hgt
    · rw [if_pos h, if_pos (by omega)]
    · rw [if_neg h, if_neg (by omega)]
  · intro t ht
    rcases htouch t ht with h | ⟨r, c, hc, _, h2, h3, h4⟩
    · simp at h
    · exact ⟨r, c, hc, by omega, h3, h4⟩


theorem mirror_idx (w hgt r c : Nat) (hc : c < w) (hr : r < hgt) :
    w * hgt - 1 - (r * w + c) = (hgt - 1 - r) * w + (w - 1 - c) := by
  obtain ⟨k, rfl⟩ : ∃ k, hgt = r + 1 + k := ⟨hgt - (r + 1), by omega⟩
  have e1 : r + 1 + k - 1 - r = k := by omega
  have e2 : w * (r + 1 + k) = r * w + w + k * w := by ring
  rw [e1, e2]
  omega

theorem rotated_of_run {fuel : Nat} {src : List Pixel} {W H : Int} {m : Mem}
    (h : gmf_rotate_rgba_180 fuel src W H = .ok m) : rotated fuel src W H = .ok m.cells := by
  unfold rotated
  rw [h]
  rfl

/-- A call with height zero runs no loop body. -/
theorem rotate_height_zero (fuel : Nat) (src : List Pixel) (W : Int) (hf : 0 < fuel) :
    gmf_rotate_rgba_180 fuel src W 0 = .ok { cells := src, touched := [] } := by
  obtain ⟨f, rfl⟩ : ∃ f, fuel = f + 1 := ⟨fuel - 1, by omega⟩
  have e0 : int32 ((0 : Int) - 1) = .ok (-1) := by
    apply int32_ok <;> simp only [INT_MIN, INT_MAX] <;> omega
  unfold gmf_rotate_rgba_180
  rw [e0, ok_bind, rotLoop, if_neg (by omega)]

/-! ## The fuel handed to the rotator by `Scale` never runs out -/

theorem bind_ne_fuel {α β : Type} (e : Except Fault α) (k : α → Except Fault β)
    (he : e ≠ .error .outOfFuel) (hk : ∀ a, e = .ok a → k a ≠ .error .outOfFuel) :
    (e >>= k) ≠ .error .outOfFuel := by
  cases e with
  | error f =>
    intro h
    have h' : (Except.error f : Except Fault β) = .error .outOfFuel := h
    injection h' with h'
    exact he (by rw [h'])
  | ok a => exact hk a rfl

theorem int32_ne_fuel (z : Int) : int32 z ≠ .error .outOfFuel := by
  unfold int32
  split <;> simp

theorem int32_val {z a : Int} (h : int32 z = .ok a) : a = z := by
  unfold int32 at h
  split at h
  · injection h with h
    exact h.symm
  · exact absurd h (by simp)

theorem load_ne_fuel (m : Mem) (idx : Int) : m.load idx ≠ .error .outOfFuel := by
  unfold Mem.load
  split
  · split <;> simp
  · simp

theorem store_ne_fuel (m : Mem) (idx : Int) (p : Pixel) :
    m.store idx p ≠ .error .outOfFuel := by
  unfold Mem.store
  split <;> simp

theorem swapWords_ne_fuel (m : Mem) (a b : Int) : swapWords m a b ≠ .error .outOfFuel := by
  unfold swapWords
  refine bind_ne_fuel _ _ (load_ne_fuel _ _) (fun r1 _ => ?_)
  refine bind_ne_fuel _ _ (load_ne_fuel _ _) (fun r2 _ => ?_)
  exact bind_ne_fuel _ _ (store_ne_fuel _ _ _) (fun m3 _ => store_ne_fuel _ _ _)

theorem rowLoop_ne_fuel (i j s w : Int) : ∀ (fuel : Nat) (x y : Int) (m : Mem),
    (w - x).toNat < fuel → rowLoop fuel i j s w x y m ≠ .error .outOfFuel := by
  intro fuel
  induction fuel with
  | zero => intro x y m h; omega
  | succ f ih =>
    intro x y m h
    rw [rowLoop]
    split
    · refine bind_ne_fuel _ _ (int32_ne_fuel _) (fun a _ => ?_)
      refine bind_ne_fuel _ _ (int32_ne_fuel _) (fun idx1 _ => ?_)
      refine bind_ne_fuel _ _ (int32_ne_fuel _) (fun b _ => ?_)
      refine bind_ne_fuel _ _ (int32_ne_fuel _) (fun idx2 _ => ?_)
      refine bind_ne_fuel _ _ (swapWords_ne_fuel _ _ _) (fun m4 _ => ?_)
      refine bind_ne_fuel _ _ (int32_ne_fuel _) (fun x' hx' => ?_)
      refine bind_ne_fuel _ _ (int32_ne_fuel _) (fun y' _ => ?_)
      have := int32_val hx'
      subst this
      exact ih _ _ _ (by omega)
    · simp

theorem rotLoop_ne_fuel (rowFuel : Nat) (s w : Int) (hrow : w.toNat < rowFuel) :
    ∀ (fuel : Nat) (i j : Int) (m : Mem),
    (j - i).toNat < fuel → rotLoop rowFuel fuel i j s w m ≠ .error .outOfFuel := by
  intro fuel
  induction fuel with
  | zero => intro i j m h; omega
  | succ f ih =>
    intro i j m h
    rw [rotLoop]
    split
    · refine bind_ne_fuel _ _ (int32_ne_fuel _) (fun y0 _ => ?_)
      refine bind_ne_fuel _ _ (rowLoop_ne_fuel _ _ _ _ _ _ _ _ (by simpa using hrow))
        (fun m1 _ => ?_)
      refine bind_ne_fuel _ _ (int32_ne_fuel _) (fun i' hi' => ?_)
      refine bind_ne_fuel _ _ (int32_ne_fuel _) (fun j' hj' => ?_)
      have h1 := int32_val hi'
      have h2 := int32_val hj'
      subst h1
      subst h2
      exact ih _ _ _ (by omega)
    · simp

/-- The budget `rotFuel width height` is never the reason a call stops. -/
theorem rotate_fuel_enough (src : List Pixel) (width height : Int) :
    gmf_rotate_rgba_180 (rotFuel width height) src width height ≠ .error .outOfFuel := by
  unfold gmf_rotate_rgba_180
  refine bind_ne_fuel _ _ (int32_ne_fuel _) (fun j0 hj0 => ?_)
  have h := int32_val hj0
  subst h
  apply rotLoop_ne_fuel
  · unfold rotFuel
    omega
  · unfold rotFuel
    omega

/-! ## The rotator: claims -/

/-- C1: on the 3 by 3 buffer `[1..9]` the call leaves `[9,8,7,4,5,6,3,2,1]`: the
middle row is not mirrored, so the pixels formerly at (0,1) and (2,1) are not at
their point-reflected positions; the 2 by 2 buffer `[1,2,3,4]` does become
`[4,3,2,1]`. -/
theorem C1_rotate_3x3_keeps_middle_row :
    rotated 4 [1, 2, 3, 4, 5, 6, 7, 8, 9] 3 3 = .ok [9, 8, 7, 4, 5, 6, 3, 2, 1] ∧
    rotated 4 [1, 2, 3, 4, 5, 6, 7, 8, 9] 3 3 ≠ .ok [9, 8, 7, 6, 5, 4, 3, 2, 1] ∧
    rotated 3 [1, 2, 3, 4] 2 2 = .ok [4, 3, 2, 1] := by
  refine ⟨by rfl, ?_, by rfl⟩
  have h : rotated 4 [1, 2, 3, 4, 5, 6, 7, 8, 9] 3 3 = .ok [9, 8, 7, 4, 5, 6, 3, 2, 1] := by rfl
  rw [h]
  intro h2
  injection h2 with h3
  revert h3
  decide

/-- C2 as stated fails: for `W = 2147483647`, `H = 2` and a buffer of `W * H`
pixels the index `j * stride + y` leaves the range of `int`, so no amount of fuel
makes the call return a buffer. -/
theorem C2_counterexample_int_overflow :
    (List.replicate 4294967294 (0 : Pixel)).length = 2147483647 * 2 ∧
    ¬ ∃ fuel m, gmf_rotate_rgba_180 fuel (List.replicate 4294967294 0) 2147483647 2 = .ok m := by
  refine ⟨List.length_replicate _ _, ?_⟩
  generalize List.replicate 4294967294 (0 : Pixel) = buf
  rintro ⟨fuel, m, h⟩
  have e1 : int32 ((2 : Int) - 1) = .ok 1 := by rfl
  have e2 : int32 ((2147483647 : Int) - 1) = .ok 2147483646 := by rfl
  have e3 : int32 ((0 : Int) * 2147483647) = .ok 0 := by rfl
  have e4 : int32 ((0 : Int) + 0) = .ok 0 := by rfl
  have e5 : int32 ((1 : Int) * 2147483647) = .ok 2147483647 := by rfl
  have e6 : int32 ((2147483647 : Int) + 2147483646) = .error .overflow := by rfl
  cases fuel with
  | zero =>
    unfold gmf_rotate_rgba_180 at h
    rw [e1, ok_bind, rotLoop] at h
    exact absurd h (by simp)
  | succ f =>
    unfold gmf_rotate_rgba_180 at h
    rw [e1, ok_bind, rotLoop, if_pos (by decide), e2, ok_bind, rowLoop, if_pos (by decide),
      e3, ok_bind, e4, ok_bind, e5, ok_bind, e6] at h
    exact absurd h (by simp [bind, Except.bind])

/-- C2, amended: for `W ≥ 1`, `H ≥ 1` that are `int` values with `W * H ≤ 2^31`
and a buffer of `W * H` pixels, the call returns, and a second call on its result
returns the original buffer. -/
theorem C2_rotate_involution (W H fuel : Nat) (src : List Pixel) (hW : 1 ≤ W)
    (hH : 1 ≤ H) (hHmax : H ≤ 2147483647) (hsz : W * H ≤ 2147483648)
    (hlen : src.length = W * H) (hfw : W < fuel) (hfh : H < fuel) :
    ∃ once, rotated fuel src W H = .ok once ∧ rotated fuel once W H = .ok src := by
  obtain ⟨m1, hrun1, hl1, hc1, hfar1, _⟩ :=
    rotate_spec W H fuel src hH hHmax hsz hfw hfh (by omega)
  obtain ⟨m2, hrun2, hl2, hc2, hfar2, _⟩ :=
    rotate_spec W H fuel m1.cells hH hHmax hsz hfw hfh (by omega)
  refine ⟨m1.cells, rotated_of_run hrun1, ?_⟩
  rw [rotated_of_run hrun2]
  congr 1
  apply List.ext_getElem?
  intro p
  by_cases hp : p < W * H
  · obtain ⟨r, c, hc, rfl⟩ := idx_split W p (by omega)
    have hr : r < H := row_lt W H r c hp
    rw [hc2 r c hc]
    by_cases hmid : 2 * r + 1 = H
    · rw [if_neg (by omega), hc1 r c hc, if_neg (by omega)]
    · rw [if_pos ⟨hr, hmid⟩, hc1 (H - 1 - r) (W - 1 - c) (by omega), if_pos (by omega)]
      apply idx_congr
      have e1 : H - 1 - (H - 1 - r) = r := by omega
      have e2 : W - 1 - (W - 1 - c) = c := by omega
      rw [e1, e2]
  · rw [hfar2 p (by omega), hfar1 p (by omega)]

/-- C2, amended, at `W = 3`, `H = 3`. -/
theorem C2_rotate_involution_witness :
    ∃ once, rotated 4 [1, 2, 3, 4, 5, 6, 7, 8, 9] (3 : Nat) (3 : Nat) = .ok once ∧
      rotated 4 once (3 : Nat) (3 : Nat) = .ok [1, 2, 3, 4, 5, 6, 7, 8, 9] :=
  C2_rotate_involution 3 3 4 [1, 2, 3, 4, 5, 6, 7, 8, 9] (by decide) (by decide) (by decide)
    (by decide) (by rfl) (by decide) (by decide)

/-- C9 as stated fails: for `W = H = 46341` the pixel count exceeds `2^31` and the
first computation of `j * stride + y` leaves the range of `int`. -/
theorem C9_counterexample_int_overflow :
    (List.replicate 2147488281 (0 : Pixel)).length = 46341 * 46341 ∧
    ∀ fuel, gmf_rotate_rgba_180 (fuel + 1) (List.replicate 2147488281 0) 46341 46341 =
      .error .overflow := by
  refine ⟨List.length_replicate _ _, ?_⟩
  generalize List.replicate 2147488281 (0 : Pixel) = buf
  intro fuel
  have e1 : int32 ((46341 : Int) - 1) = .ok 46340 := by rfl
  have e3 : int32 ((0 : Int) * 46341) = .ok 0 := by rfl
  have e4 : int32 ((0 : Int) + 0) = .ok 0 := by rfl
  have e5 : int32 ((46340 : Int) * 46341) = .ok 2147441940 := by rfl
  have e6 : int32 ((2147441940 : Int) + 46340) = .error .overflow := by rfl
  unfold gmf_rotate_rgba_180
  rw [e1, ok_bind, rotLoop, if_pos (by decide), e1, ok_bind, rowLoop, if_pos (by decide),
    e3, ok_bind, e4, ok_bind, e5, ok_bind, e6]
  rfl

/-- C9, amended: for `W ≥ 1`, `H ≥ 1` that are `int` values with `W * H ≤ 2^31`
and a buffer of `W * H` pixels the call returns; the pixel at column `x` of a row
`y` other than the middle row of an odd height holds the input pixel of
`(W-1-x, H-1-y)`; the middle row `y = (H-1)/2` of an odd height is never loaded
or stored and keeps its pixels; for even `H` the result is the reversed input and
for `H = 1` it is the input, with no word loaded or stored. -/
theorem C9_rotate_exact (W H fuel : Nat) (src : List Pixel) (hW : 1 ≤ W)
    (hH : 1 ≤ H) (hHmax : H ≤ 2147483647) (hsz : W * H ≤ 2147483648)
    (hlen : src.length = W * H) (hfw : W < fuel) (hfh : H < fuel) :
    ∃ m, gmf_rotate_rgba_180 fuel src W H = .ok m ∧
      m.cells.length = W * H ∧
      (∀ x y, x < W → y < H → m.cells[y * W + x]? =
          if H % 2 = 1 ∧ y = (H - 1) / 2 then src[y * W + x]?
          else src[(H - 1 - y) * W + (W - 1 - x)]?) ∧
      (∀ x y, x < W → H % 2 = 1 → y = (H - 1) / 2 →
          ((y * W + x : Nat) : Int) ∉ m.touched) ∧
      (H % 2 = 0 → m.cells = src.reverse) ∧
      (H = 1 → m.cells = src ∧ m.touched = []) := by
  obtain ⟨m, hrun, hl, hc, hfar, htouch⟩ :=
    rotate_spec W H fuel src hH hHmax hsz hfw hfh (by omega)
  have hcell : ∀ x y, x < W → y < H → m.cells[y * W + x]? =
      if H % 2 = 1 ∧ y = (H - 1) / 2 then src[y * W + x]?
      else src[(H - 1 - y) * W + (W - 1 - x)]? := by
    intro x y hx hy
    rw [hc y x hx]
    by_cases hmid : 2 * y + 1 = H
    · rw [if_neg (by omega), if_pos (by omega)]
    · rw [if_pos ⟨hy, hmid⟩, if_neg (by omega)]
  refine ⟨m, hrun, by omega, hcell, ?_, ?_, ?_⟩
  · intro x y hx hodd hy hmem
    obtain ⟨r, c, hc', _, hne, heq⟩ := htouch _ hmem
    have heq' : y * W + x = r * W + c := by exact_mod_cast heq
    by_cases hry : y = r
    · subst hry; omega
    · exact row_sep W y r x c hry hx hc' heq'
  · intro heven
    apply List.ext_getElem?
    intro p
    by_cases hp : p < W * H
    · obtain ⟨r, c, hc', rfl⟩ := idx_split W p (by omega)
      have hr : r < H := row_lt W H r c hp
      rw [hcell c r hc' hr, if_neg (by omega),
        List.getElem?_reverse (by omega), hlen, mirror_idx W H r c hc' hr]
    · rw [List.getElem?_eq_none (by omega), List.getElem?_eq_none (by simp; omega)]
  · intro hone
    constructor
    · apply List.ext_getElem?
      intro p
      by_cases hp : p < W * H
      · obtain ⟨r, c, hc', rfl⟩ := idx_split W p (by omega)
        have hr : r < H := row_lt W H r c hp
        rw [hcell c r hc' hr, if_pos (by omega)]
      · rw [hfar p (by omega)]
    · apply List.eq_nil_iff_forall_not_mem.mpr
      intro t ht
      obtain ⟨r, c, _, hr, hne, _⟩ := htouch t ht
      omega

/-- C9, amended, at `W = 2`, `H = 3`. -/
theorem C9_rotate_exact_witness :
    ∃ m, gmf_rotate_rgba_180 4 [1, 2, 3, 4, 5, 6] (2 : Nat) (3 : Nat) = .ok m ∧
      m.cells.length = 2 * 3 ∧
      (∀ x y, x < 2 → y < 3 → m.cells[y * 2 + x]? =
          if 3 % 2 = 1 ∧ y = (3 - 1) / 2 then [1, 2, 3, 4, 5, 6][y * 2 + x]?
          else [1, 2, 3, 4, 5, 6][(3 - 1 - y) * 2 + (2 - 1 - x)]?) ∧
      (∀ x y, x < 2 → 3 % 2 = 1 → y = (3 - 1) / 2 →
          ((y * 2 + x : Nat) : Int) ∉ m.touched) ∧
      (3 % 2 = 0 → m.cells = [1, 2, 3, 4, 5, 6].reverse) ∧
      (3 = 1 → m.cells = [1, 2, 3, 4, 5, 6] ∧ m.touched = []) :=
  C9_rotate_exact 2 3 4 [1, 2, 3, 4, 5, 6] (by decide) (by decide) (by decide) (by decide)
    (by rfl) (by decide) (by decide)

/-- C10: for `int` values `W ≥ 0`, `H ≥ 0` with `W * H ≤ 2^31 - 1` and a buffer of
at least `W * H` pixels the call returns (no out-of-range access, no `int`
overflow, both loops end), every index it loads or stores lies in `[0, W * H)`,
and every pixel at an index `≥ W * H` is unchanged. -/
theorem C10_rotate_safe (W H fuel : Nat) (src : List Pixel) (hHmax : H ≤ 2147483647)
    (hsz : W * H ≤ 2147483647) (hlen : W * H ≤ src.length) (hfw : W < fuel)
    (hfh : H < fuel) :
    ∃ m, gmf_rotate_rgba_180 fuel src W H = .ok m ∧
      (∀ t ∈ m.touched, 0 ≤ t ∧ t < ((W * H : Nat) : Int)) ∧
      m.cells.length = src.length ∧
      (∀ p, W * H ≤ p → m.cells[p]? = src[p]?) := by
  rcases Nat.eq_zero_or_pos H with h0 | hpos
  · subst h0
    refine ⟨{ cells := src, touched := [] }, ?_, ?_, rfl, fun _ _ => rfl⟩
    · exact rotate_height_zero fuel src W (by omega)
    · intro t ht
      simp at ht
  · obtain ⟨m, hrun, hl, _, hfar, htouch⟩ :=
      rotate_spec W H fuel src hpos hHmax (by omega) hfw hfh hlen
    refine ⟨m, hrun, ?_, hl, hfar⟩
    intro t ht
    obtain ⟨r, c, hc, hr, _, rfl⟩ := htouch t ht
    have := idx_lt W H r c hc hr
    constructor
    · exact Int.natCast_nonneg _
    · exact_mod_cast this

/-- C10 at `W = 3`, `H = 3` with a buffer of ten words. -/
theorem C10_rotate_safe_witness :
    ∃ m, gmf_rotate_rgba_180 4 [1, 2, 3, 4, 5, 6, 7, 8, 9, 10] (3 : Nat) (3 : Nat) = .ok m ∧
      (∀ t ∈ m.touched, 0 ≤ t ∧ t < ((3 * 3 : Nat) : Int)) ∧
      m.cells.length = [1, 2, 3, 4, 5, 6, 7, 8, 9, 10].length ∧
      (∀ p, 3 * 3 ≤ p → m.cells[p]? = [1, 2, 3, 4, 5, 6, 7, 8, 9, 10][p]?) :=
  C10_rotate_safe 3 3 4 [1, 2, 3, 4, 5, 6, 7, 8, 9, 10] (by decide) (by decide) (by decide)
    (by decide) (by decide)


/-! ## The Go layer: lemmas -/

theorem ImgAlloc_ok_fields {env : Env} {k : Nat} {f t1 : Frame}
    (h : f.ImgAlloc env k = .ok t1) :
    t1.width = f.width ∧ t1.height = f.height ∧ t1.format = f.format ∧
      t1.pts = f.pts ∧ t1.pktDts = f.pktDts := by
  unfold Frame.ImgAlloc at h
  split at h
  · injection h with h
    subst h
    exact ⟨rfl, rfl, rfl, rfl, rfl⟩
  · exact absurd h (by simp)

/-- On two frames with a native frame behind them `Scale` returns, and it leaves
the metadata of the destination as it was. -/
theorem Scale_live (env : Env) (ctx : SwsCtx) (s d : Frame) (rot : Bool) :
    ∃ t2, ctx.Scale env (some (some s)) (some (some d)) rot = .ok t2 ∧
      t2.width = d.width ∧ t2.height = d.height ∧ t2.format = d.format ∧
      t2.pts = d.pts ∧ t2.pktDts = d.pktDts := by
  unfold SwsCtx.Scale
  dsimp only
  split
  · split
    · exact ⟨_, rfl, rfl, rfl, rfl, rfl, rfl⟩
    · exact ⟨_, rfl, rfl, rfl, rfl, rfl, rfl⟩
  · exact ⟨_, rfl, rfl, rfl, rfl, rfl, rfl⟩

/-- On a nil source frame, and on one whose `avFrame` is nil, `Scale` panics. -/
theorem Scale_dead (env : Env) (heap : Heap) (ctx : SwsCtx) (p : Option Addr)
    (dst : Option (Option Frame)) (rot : Bool) (h : p.bind heap = none) :
    ctx.Scale env (p.map heap) dst rot = .error .nilDeref := by
  cases p with
  | none => rfl
  | some a =>
    have ha : heap a = none := h
    show ctx.Scale env (some (heap a)) dst rot = .error .nilDeref
    rw [ha]
    rfl

theorem okEvents_length_succ (tmp : Frame) : ∀ (n i : Nat),
    okEvents tmp i (n + 1) = okEvents tmp i n ++ [.imgAlloc (i + n) tmp true, .scale (i + n)] := by
  intro n
  induction n with
  | zero => intro i; rfl
  | succ n ih =>
    intro i
    rw [okEvents, ih (i + 1), okEvents]
    have : i + 1 + n = i + (n + 1) := by omega
    rw [this]
    rfl

theorem okEvents_cons (tmp : Frame) (i n : Nat) :
    okEvents tmp i (n + 1) = .imgAlloc i tmp true :: .scale i :: okEvents tmp (i + 1) n := rfl

theorem mem_okEvents (tmp : Frame) (e : Event) : ∀ (n i : Nat),
    e ∈ okEvents tmp i n ↔
      ∃ j, i ≤ j ∧ j < i + n ∧ (e = .imgAlloc j tmp true ∨ e = .scale j) := by
  intro n
  induction n with
  | zero =>
    intro i
    simp only [okEvents, List.not_mem_nil, false_iff]
    rintro ⟨j, h1, h2, _⟩
    omega
  | succ n ih =>
    intro i
    rw [okEvents_cons, List.mem_cons, List.mem_cons, ih (i + 1)]
    constructor
    · rintro (h | h | ⟨j, h1, h2, h3⟩)
      · exact ⟨i, by omega, by omega, Or.inl h⟩
      · exact ⟨i, by omega, by omega, Or.inr h⟩
      · exact ⟨j, by omega, by omega, h3⟩
    · rintro ⟨j, h1, h2, h3⟩
      by_cases hj : j = i
      · subst hj
        rcases h3 with h3 | h3
        · exact Or.inl h3
        · exact Or.inr (Or.inl h3)
      · exact Or.inr (Or.inr ⟨j, by omega, by omega, h3⟩)

theorem freeLoop_eq : ∀ (frames : List (Option Addr)) (log : List Event),
    freeLoop frames log = log ++ freeEvents frames := by
  intro frames
  induction frames with
  | nil => intro log; simp [freeLoop, freeEvents]
  | cons p tl ih =>
    intro log
    cases p with
    | none => rw [freeLoop, freeEvents, ih]
    | some a =>
      rw [freeLoop, freeEvents, ih]
      simp

theorem mem_freeEvents (e : Event) : ∀ (frames : List (Option Addr)),
    e ∈ freeEvents frames → ∃ a, e = .free a ∧ some a ∈ frames := by
  intro frames
  induction frames with
  | nil => intro h; simp [freeEvents] at h
  | cons p tl ih =>
    intro h
    cases p with
    | none =>
      rw [freeEvents] at h
      obtain ⟨a, h1, h2⟩ := ih h
      exact ⟨a, h1, List.mem_cons_of_mem _ h2⟩
    | some b =>
      rw [freeEvents, List.mem_cons] at h
      rcases h with h | h
      · exact ⟨b, h, List.mem_cons_self _ _⟩
      · obtain ⟨a, h1, h2⟩ := ih h
        exact ⟨a, h1, List.mem_cons_of_mem _ h2⟩

/-- `Free` is called on the object at `a` once for every position of `frames`
that holds `a`. -/
theorem count_free_freeEvents (a : Addr) : ∀ (frames : List (Option Addr)),
    (freeEvents frames).count (.free a) = frames.count (some a) := by
  intro frames
  induction frames with
  | nil => rfl
  | cons p tl ih =>
    cases p with
    | none =>
      rw [freeEvents, ih, List.count_cons]
      simp
    | some b =>
      rw [freeEvents, List.count_cons, List.count_cons, ih]
      by_cases hb : b = a
      · subst hb
        simp
      · simp [hb]

theorem count_some_nodup (a : Addr) : ∀ (l : List (Option Addr)),
    l.Nodup → some a ∈ l → l.count (some a) = 1 := by
  intro l
  induction l with
  | nil => intro _ h; simp at h
  | cons p tl ih =>
    intro hnd hmem
    obtain ⟨hp, htl⟩ := List.nodup_cons.mp hnd
    rw [List.count_cons]
    by_cases hpa : p = some a
    · subst hpa
      have h0 : tl.count (some a) = 0 := List.count_eq_zero.mpr hp
      rw [h0]
      simp
    · have hin : some a ∈ tl := by
        rcases List.mem_cons.mp hmem with h | h
        · exact absurd h.symm hpa
        · exact h
      rw [ih htl hin]
      simp [hpa]

theorem count_free_okEvents (tmp : Frame) (a : Addr) (n j : Nat) :
    (okEvents tmp j n).count (.free a) = 0 := by
  rw [List.count_eq_zero]
  intro h
  rw [mem_okEvents] at h
  obtain ⟨k, _, _, h | h⟩ := h <;> cases h

theorem failed_alloc_not_ok (tmp : Frame) (i n k : Nat) (t : Frame) :
    Event.imgAlloc k t false ∉ okEvents tmp i n := by
  intro h
  rw [mem_okEvents] at h
  obtain ⟨j, _, _, h | h⟩ := h <;> cases h

theorem free_not_ok (tmp : Frame) (i n : Nat) (a : Addr) :
    Event.free a ∉ okEvents tmp i n := by
  intro h
  rw [mem_okEvents] at h
  obtain ⟨j, _, _, h | h⟩ := h <;> cases h

/-- The three ways in which the first loop ends, told apart by the inputs: every
allocation succeeds and every frame is live; or the allocation fails at a first
index `k` that the loop reaches; or the frame at a first index `k` is nil or
has a nil `avFrame`. -/
theorem scaleLoop_flow (env : Env) (heap : Heap) (ctx : SwsCtx) (rot : Bool) :
    ∀ (rest : List (Option Addr)) (i : Nat) (result : List Frame) (log : List Event),
    ((∀ k, k < rest.length → ∃ t1, (newTmp ctx).ImgAlloc env (i + k) = .ok t1) ∧
      (∀ (k : Nat) (p : Option Addr), rest[k]? = some p → live heap p = true) ∧
      ∃ outs, scaleLoop env heap ctx rot i rest result log =
          .done (result ++ outs) (log ++ okEvents (newTmp ctx) i rest.length) ∧
        outs.length = rest.length ∧
        ∀ (k : Nat) (p : Option Addr) (fr : Frame), rest[k]? = some p →
          p.bind heap = some fr →
          ∃ o : Frame, outs[k]? = some o ∧ o.pts = fr.pts ∧ o.pktDts = fr.pktDts ∧
            o.width = ctx.width ∧ o.height = ctx.height ∧ o.format = ctx.pixfmt) ∨
    (∃ k err, k < rest.length ∧
      (∀ j, j < k → ∃ t1, (newTmp ctx).ImgAlloc env (i + j) = .ok t1) ∧
      (∀ j, j < k → ∃ p, rest[j]? = some p ∧ live heap p = true) ∧
      (newTmp ctx).ImgAlloc env (i + k) = .error err ∧
      scaleLoop env heap ctx rot i rest result log =
        .ret (.allocationTmpFrame err)
          (log ++ okEvents (newTmp ctx) i k ++ [.imgAlloc (i + k) (newTmp ctx) false])) ∨
    (∃ k, k < rest.length ∧
      (∀ j, j < k → ∃ t1, (newTmp ctx).ImgAlloc env (i + j) = .ok t1) ∧
      (∀ j, j < k → ∃ p, rest[j]? = some p ∧ live heap p = true) ∧
      (∃ t1, (newTmp ctx).ImgAlloc env (i + k) = .ok t1) ∧
      (∃ p, rest[k]? = some p ∧ live heap p = false) ∧
      scaleLoop env heap ctx rot i rest result log =
        .abort .nilDeref
          (log ++ okEvents (newTmp ctx) i k ++ [.imgAlloc (i + k) (newTmp ctx) true])) := by
  intro rest
  induction rest with
  | nil =>
    intro i result log
    refine Or.inl ⟨fun k hk => absurd hk (by simp), fun k p h => by simp at h, [], ?_, rfl,
      fun k p fr h => by simp at h⟩
    simp [scaleLoop, okEvents]
  | cons p tl ih =>
    intro i result log
    rcases hA : (newTmp ctx).ImgAlloc env i with err | t1
    · refine Or.inr (Or.inl ⟨0, err, by simp, fun j hj => absurd hj (by omega),
        fun j hj => absurd hj (by omega), by simpa using hA, ?_⟩)
      rw [scaleLoop]
      simp only [hA]
      simp [okEvents]
    · rcases hb : p.bind heap with _ | fr
      · have hS := Scale_dead env heap ctx p (some (some t1)) rot hb
        refine Or.inr (Or.inr ⟨0, by simp, fun j hj => absurd hj (by omega),
          fun j hj => absurd hj (by omega), ⟨t1, by simpa using hA⟩,
          ⟨p, by simp, by simp [live, hb]⟩, ?_⟩)
        rw [scaleLoop]
        simp only [hA, hS]
        simp [okEvents]
      · have hlive : live heap p = true := by simp [live, hb]
        obtain ⟨a, rfl⟩ : ∃ a, p = some a := by
          cases p with
          | none => simp at hb
          | some a => exact ⟨a, rfl⟩
        have hha : heap a = some fr := hb
        obtain ⟨t2, hS, w2, h2, f2, _, _⟩ := Scale_live env ctx fr t1 rot
        obtain ⟨w1, h1, f1, _, _⟩ := ImgAlloc_ok_fields hA
        have hstep : scaleLoop env heap ctx rot i (some a :: tl) result log =
            scaleLoop env heap ctx rot (i + 1) tl
              (result ++ [(t2.SetPts fr.Pts).SetPktDts fr.PktDts])
              (log ++ [.imgAlloc i (newTmp ctx) true, .scale i]) := by
          rw [scaleLoop]
          simp only [hA]
          have e1 : Option.map heap (some a) = some (some fr) := by
            show some (heap a) = some (some fr)
            rw [hha]
          have e2 : Option.bind (some a) heap = some fr := hha
          rw [e1]
          simp only [hS, e2]
        rcases ih (i + 1) (result ++ [(t2.SetPts fr.Pts).SetPktDts fr.PktDts])
            (log ++ [.imgAlloc i (newTmp ctx) true, .scale i]) with
          ⟨hall, hliv, outs, hrun, hlen, hout⟩ | ⟨k, err, hk, hpre, hlv, herr, hrun⟩ |
            ⟨k, hk, hpre, hlv, hok, hbad, hrun⟩
        · refine Or.inl ⟨?_, ?_, (t2.SetPts fr.Pts).SetPktDts fr.PktDts :: outs, ?_, ?_, ?_⟩
          · intro k hk
            cases k with
            | zero => exact ⟨t1, by simpa using hA⟩
            | succ k =>
              rw [show i + (k + 1) = i + 1 + k by omega]
              exact hall k (by simpa using hk)
          · intro k q hq
            cases k with
            | zero =>
              have : some a = q := by simpa using hq
              rw [← this]
              exact hlive
            | succ k => exact hliv k q (by simpa using hq)
          · rw [hstep, hrun, List.length_cons, okEvents_cons]
            simp
          · simp [hlen]
          · intro k q fr' hq hfr'
            cases k with
            | zero =>
              have hqa : some a = q := by simpa using hq
              subst hqa
              have hff : fr = fr' := by
                have : some fr = some fr' := by rw [← hha]; exact hfr'
                injection this
              subst hff
              refine ⟨(t2.SetPts fr.Pts).SetPktDts fr.PktDts, by simp, rfl, rfl, ?_, ?_, ?_⟩
              · show t2.width = ctx.width
                rw [w2, w1]; rfl
              · show t2.height = ctx.height
                rw [h2, h1]; rfl
              · show t2.format = ctx.pixfmt
                rw [f2, f1]; rfl
            | succ k =>
              obtain ⟨o, ho, hrest⟩ := hout k q fr' (by simpa using hq) hfr'
              exact ⟨o, by simpa using ho, hrest⟩
        · refine Or.inr (Or.inl ⟨k + 1, err, by simp; omega, ?_, ?_, ?_, ?_⟩)
          · intro j hj
            cases j with
            | zero => exact ⟨t1, by simpa using hA⟩
            | succ j =>
              rw [show i + (j + 1) = i + 1 + j by omega]
              exact hpre j (by omega)
          · intro j hj
            cases j with
            | zero => exact ⟨some a, by simp, hlive⟩
            | succ j =>
              obtain ⟨q, hq, hql⟩ := hlv j (by omega)
              exact ⟨q, by simpa using hq, hql⟩
          · rw [show i + (k + 1) = i + 1 + k by omega]
            exact herr
          · rw [hstep, hrun, okEvents_cons, show i + (k + 1) = i + 1 + k by omega]
            simp
        · refine Or.inr (Or.inr ⟨k + 1, by simp; omega, ?_, ?_, ?_, ?_, ?_⟩)
          · intro j hj
            cases j with
            | zero => exact ⟨t1, by simpa using hA⟩
            | succ j =>
              rw [show i + (j + 1) = i + 1 + j by omega]
              exact hpre j (by omega)
          · intro j hj
            cases j with
            | zero => exact ⟨some a, by simp, hlive⟩
            | succ j =>
              obtain ⟨q, hq, hql⟩ := hlv j (by omega)
              exact ⟨q, by simpa using hq, hql⟩
          · obtain ⟨t, ht⟩ := hok
            exact ⟨t, by rw [show i + (k + 1) = i + 1 + k by omega]; exact ht⟩
          · obtain ⟨q, hq, hql⟩ := hbad
            exact ⟨q, by simpa using hq, hql⟩
          · rw [hstep, hrun, okEvents_cons, show i + (k + 1) = i + 1 + k by omega]
            simp

/-- The three ways in which `DefaultRescaler` ends, told apart by the inputs. -/
theorem DefaultRescaler_flow (env : Env) (heap : Heap) (ctx : SwsCtx)
    (frames : List (Option Addr)) (rot : Bool) :
    ((∀ k, k < frames.length → ∃ t1, (newTmp ctx).ImgAlloc env k = .ok t1) ∧
      (∀ (k : Nat) (p : Option Addr), frames[k]? = some p → live heap p = true) ∧
      ∃ outs, (DefaultRescaler env heap ctx frames rot).value = .ok (some outs, none) ∧
        (DefaultRescaler env heap ctx frames rot).log =
          okEvents (newTmp ctx) 0 frames.length ++ freeEvents frames ∧
        outs.length = frames.length ∧
        ∀ (k : Nat) (p : Option Addr) (fr : Frame), frames[k]? = some p →
          p.bind heap = some fr →
          ∃ o : Frame, outs[k]? = some o ∧ o.pts = fr.pts ∧ o.pktDts = fr.pktDts ∧
            o.width = ctx.width ∧ o.height = ctx.height ∧ o.format = ctx.pixfmt) ∨
    (∃ k err, k < frames.length ∧
      (∀ j, j < k → ∃ t1, (newTmp ctx).ImgAlloc env j = .ok t1) ∧
      (∀ j, j < k → ∃ p, frames[j]? = some p ∧ live heap p = true) ∧
      (newTmp ctx).ImgAlloc env k = .error err ∧
      (DefaultRescaler env heap ctx frames rot).value =
        .ok (none, some (.allocationTmpFrame err)) ∧
      (DefaultRescaler env heap ctx frames rot).log =
        okEvents (newTmp ctx) 0 k ++ [.imgAlloc k (newTmp ctx) false]) ∨
    (∃ k, k < frames.length ∧
      (∀ j, j < k → ∃ t1, (newTmp ctx).ImgAlloc env j = .ok t1) ∧
      (∀ j, j < k → ∃ p, frames[j]? = some p ∧ live heap p = true) ∧
      (∃ t1, (newTmp ctx).ImgAlloc env k = .ok t1) ∧
      (∃ p, frames[k]? = some p ∧ live heap p = false) ∧
      (DefaultRescaler env heap ctx frames rot).value = .error .nilDeref ∧
      (DefaultRescaler env heap ctx frames rot).log =
        okEvents (newTmp ctx) 0 k ++ [.imgAlloc k (newTmp ctx) true]) := by
  rcases scaleLoop_flow env heap ctx rot frames 0 [] [] with
    ⟨hall, hliv, outs, hrun, hlen, hout⟩ | ⟨k, err, hk, hpre, hlv, herr, hrun⟩ |
      ⟨k, hk, hpre, hlv, hok, hbad, hrun⟩
  · refine Or.inl ⟨fun k hk => by simpa using hall k hk, hliv, outs, ?_, ?_, hlen, hout⟩
    · unfold DefaultRescaler
      rw [hrun]
      rfl
    · unfold DefaultRescaler
      rw [hrun]
      simp only [List.nil_append]
      exact freeLoop_eq frames _
  · refine Or.inr (Or.inl ⟨k, err, hk, fun j hj => by simpa using hpre j hj, hlv,
      by simpa using herr, ?_, ?_⟩)
    · unfold DefaultRescaler
      rw [hrun]
    · unfold DefaultRescaler
      rw [hrun]
      simp
  · obtain ⟨t1, ht1⟩ := hok
    refine Or.inr (Or.inr ⟨k, hk, fun j hj => by simpa using hpre j hj, hlv,
      ⟨t1, by simpa using ht1⟩, hbad, ?_, ?_⟩)
    · unfold DefaultRescaler
      rw [hrun]
    · unfold DefaultRescaler
      rw [hrun]
      simp

/-- Fail fast: when the loop reaches index `k` (every earlier allocation
succeeded, every earlier frame is live) and the allocation for `k` fails,
`DefaultRescaler` returns that error with a nil result, having logged the
successful iterations below `k` and the failed allocation. -/
theorem DefaultRescaler_fail (env : Env) (heap : Heap) (ctx : SwsCtx)
    (frames : List (Option Addr)) (rot : Bool) (k : Nat) (err : String)
    (hk : k < frames.length)
    (hpre : ∀ j, j < k → ∃ t1, (newTmp ctx).ImgAlloc env j = .ok t1)
    (hlv : ∀ j, j < k → ∃ p, frames[j]? = some p ∧ live heap p = true)
    (herr : (newTmp ctx).ImgAlloc env k = .error err) :
    (DefaultRescaler env heap ctx frames rot).value =
        .ok (none, some (.allocationTmpFrame err)) ∧
      (DefaultRescaler env heap ctx frames rot).log =
        okEvents (newTmp ctx) 0 k ++ [.imgAlloc k (newTmp ctx) false] := by
  rcases DefaultRescaler_flow env heap ctx frames rot with
    ⟨hall, _, _⟩ | ⟨k', err', hk', hpre', hlv', herr', hv, hl⟩ |
      ⟨k', hk', hpre', hlv', hok', hbad', _, _⟩
  · obtain ⟨t1, ht1⟩ := hall k hk
    rw [herr] at ht1
    cases ht1
  · have hkk : k' = k := by
      rcases Nat.lt_trichotomy k' k with h | h | h
      · obtain ⟨t1, ht1⟩ := hpre k' h
        rw [herr'] at ht1
        cases ht1
      · exact h
      · obtain ⟨t1, ht1⟩ := hpre' k h
        rw [herr] at ht1
        cases ht1
    subst hkk
    rw [herr] at herr'
    injection herr' with herr'
    subst herr'
    exact ⟨hv, hl⟩
  · exfalso
    rcases Nat.lt_trichotomy k' k with h | h | h
    · obtain ⟨p, hp, hpl⟩ := hlv k' h
      obtain ⟨q, hq, hql⟩ := hbad'
      rw [hp] at hq
      injection hq with hq
      subst hq
      rw [hpl] at hql
      cases hql
    · subst h
      obtain ⟨t1, ht1⟩ := hok'
      rw [herr] at ht1
      cases ht1
    · obtain ⟨t1, ht1⟩ := hpre' k h
      rw [herr] at ht1
      cases ht1

/-! ## The Go layer: claims -/

/-- C6: `NewSwsCtx` returns an error and no context exactly when the factory
`sws_getContext` returns null; otherwise it returns no error and a context that
holds the returned handle with `width = dstW`, `height = dstH` and
`pixfmt = dstPixFmt`. -/
theorem C6_NewSwsCtx_result (env : Env)
    (srcW srcH srcPixFmt dstW dstH dstPixFmt method : Int) :
    (NewSwsCtx env srcW srcH srcPixFmt dstW dstH dstPixFmt method =
        (none, some .creatingSwsContext) ↔
      env.sws_getContext (cInt srcW) (cInt srcH) srcPixFmt (cInt dstW) (cInt dstH)
        dstPixFmt (cInt method) = none) ∧
    (((NewSwsCtx env srcW srcH srcPixFmt dstW dstH dstPixFmt method).2 ≠ none ∨
        (NewSwsCtx env srcW srcH srcPixFmt dstW dstH dstPixFmt method).1 = none) →
      env.sws_getContext (cInt srcW) (cInt srcH) srcPixFmt (cInt dstW) (cInt dstH)
        dstPixFmt (cInt method) = none) ∧
    (∀ h, env.sws_getContext (cInt srcW) (cInt srcH) srcPixFmt (cInt dstW) (cInt dstH)
        dstPixFmt (cInt method) = some h →
      NewSwsCtx env srcW srcH srcPixFmt dstW dstH dstPixFmt method =
        (some { swsCtx := some h, width := dstW, height := dstH, pixfmt := dstPixFmt },
          none)) := by
  unfold NewSwsCtx
  cases env.sws_getContext (cInt srcW) (cInt srcH) srcPixFmt (cInt dstW) (cInt dstH)
      dstPixFmt (cInt method) with
  | none => simp
  | some h => simp

/-- C6 at two environments: a factory that returns null and one that returns
the handle `1`. -/
theorem C6_NewSwsCtx_result_witness :
    NewSwsCtx envNoCtx 4 4 0 2 2 26 2 = (none, some .creatingSwsContext) ∧
    NewSwsCtx envRgba 4 4 0 2 2 26 2 =
      (some { swsCtx := some 1, width := 2, height := 2, pixfmt := 26 }, none) :=
  ⟨(C6_NewSwsCtx_result envNoCtx 4 4 0 2 2 26 2).1.mpr rfl,
   (C6_NewSwsCtx_result envRgba 4 4 0 2 2 26 2).2.2 1 rfl⟩

/-- C7: with a null `frame` the helper writes its message to `stderr` and then
goes on to evaluate `frame->data`: the call never ends normally, and whenever
`4 * width` fits an `int` it ends in the null dereference.  `ScaleRGBA` reaches
the helper with a null `frame` when `dst.avFrame` is nil. -/
theorem C7_scale_rgba_null_frame_dereferenced (env : Env) (ctx : Option SwsContext)
    (rgba : List Pixel) (width height : Int) :
    (gmf_scale_rgba env ctx rgba width height none).stderr =
      ["[gmf_scale_rgba] frame is NULL\n"] ∧
    (∀ out, (gmf_scale_rgba env ctx rgba width height none).result ≠ .ok out) ∧
    ((INT_MIN ≤ 4 * width ∧ 4 * width ≤ INT_MAX) →
      (gmf_scale_rgba env ctx rgba width height none).result = .error .nullDeref) ∧
    (SwsCtx.ScaleRGBA env { swsCtx := ctx, width := 2, height := 2, pixfmt := 26 }
        [0, 0, 0, 255] 1 1 (some none)).stderr = ["[gmf_scale_rgba] frame is NULL\n"] ∧
    (SwsCtx.ScaleRGBA env { swsCtx := ctx, width := 2, height := 2, pixfmt := 26 }
        [0, 0, 0, 255] 1 1 (some none)).result = .error (.undefinedC .nullDeref) := by
  refine ⟨?_, ?_, ?_, by rfl, by rfl⟩
  · unfold gmf_scale_rgba
    cases int32 (4 * width) with
    | error e => rfl
    | ok v => rfl
  · unfold gmf_scale_rgba
    intro out
    cases int32 (4 * width) with
    | error e => simp
    | ok v => simp
  · intro h
    unfold gmf_scale_rgba
    rw [int32_ok _ h.1 h.2]

/-- C4: a context built by `NewPicSwsCtx` for a 2 by 2 destination of format 26
records width, height and format 0, and `DefaultRescaler` sets its output frame
to 0 by 0, format 0; the context built by `NewSwsCtx` for the same destination
gives a 2 by 2 output frame of format 26. -/
theorem C4_NewPicSwsCtx_drops_destination :
    NewPicSwsCtx envRgba 4 4 0 { width := 2, height := 2, pixFmt := 26 } 2 =
      some { swsCtx := some 1, width := 0, height := 0, pixfmt := 0 } ∧
    (DefaultRescaler envRgba heapTs { swsCtx := some 1, width := 0, height := 0, pixfmt := 0 }
        [some 1] false).value =
      .ok (some [{ width := 0, height := 0, format := 0, pts := 10, pktDts := 11,
                   data := [], linesize := 0 }], none) ∧
    NewSwsCtx envRgba 4 4 0 2 2 26 2 =
      (some { swsCtx := some 1, width := 2, height := 2, pixfmt := 26 }, none) ∧
    (DefaultRescaler envRgba heapTs { swsCtx := some 1, width := 2, height := 2, pixfmt := 26 }
        [some 1] false).value =
      .ok (some [{ width := 2, height := 2, format := 26, pts := 10, pktDts := 11,
                   data := [0, 0, 0, 0], linesize := 2 }], none) :=
  ⟨by rfl, by rfl, by rfl, by rfl⟩

/-- C3 as stated fails: with every allocation succeeding, on the list that holds
one nil frame the call `ctx.Scale(frames[0], tmp, ...)` dereferences the nil
pointer and `DefaultRescaler` does not return; the same happens on the list that
holds one non-nil frame whose `avFrame` is nil. -/
theorem C3_counterexample_nil_frame :
    (∀ k f, ∃ plane, envRgba.imgAlloc k f = .ok plane) ∧
    (DefaultRescaler envRgba heapTs { swsCtx := some 1, width := 2, height := 2, pixfmt := 26 }
      [none] false).value = .error .nilDeref ∧
    heapTs 0 = none ∧
    (DefaultRescaler envRgba heapTs { swsCtx := some 1, width := 2, height := 2, pixfmt := 26 }
      [some 0] false).value = .error .nilDeref :=
  ⟨fun _ _ => ⟨_, rfl⟩, by rfl, by rfl, by rfl⟩

/-- C3, amended: for every context and every list of input frames that are
non-nil and have a non-nil `avFrame`, when every output-frame allocation
succeeds, `DefaultRescaler` returns no error and a list of exactly `len(frames)`
output frames in input order, the `i`-th of which carries the `Pts` and the
`PktDts` of the `i`-th input frame. -/
theorem C3_rescale_order_and_timestamps (env : Env) (heap : Heap) (ctx : SwsCtx)
    (frames : List (Option Addr)) (rot : Bool)
    (hLive : ∀ (i : Nat) (p : Option Addr), frames[i]? = some p → live heap p = true)
    (hA : ∀ k, k < frames.length → ∃ t1, (newTmp ctx).ImgAlloc env k = .ok t1) :
    ∃ outs, (DefaultRescaler env heap ctx frames rot).value = .ok (some outs, none) ∧
      outs.length = frames.length ∧
      ∀ (i : Nat) (a : Addr) (fr : Frame), frames[i]? = some (some a) → heap a = some fr →
        ∃ o : Frame, outs[i]? = some o ∧ o.Pts = fr.Pts ∧ o.PktDts = fr.PktDts := by
  rcases DefaultRescaler_flow env heap ctx frames rot with
    ⟨_, _, outs, hv, _, hlen, hout⟩ | ⟨k, err, hk, _, _, herr, _, _⟩ |
      ⟨k, hk, _, _, _, hbad, _, _⟩
  · refine ⟨outs, hv, hlen, ?_⟩
    intro i a fr hi hfr
    obtain ⟨o, ho, hp, hd, _⟩ := hout i (some a) fr hi hfr
    exact ⟨o, ho, hp, hd⟩
  · obtain ⟨t1, ht1⟩ := hA k hk
    rw [herr] at ht1
    cases ht1
  · obtain ⟨p, hp, hpl⟩ := hbad
    rw [hLive k p hp] at hpl
    cases hpl

/-- C3, amended, on three frames with timestamps 10, 20, 30, with a rotation
that leaves the 16 by 16 output plane of a one-byte-per-pixel format. -/
theorem C3_rescale_order_and_timestamps_witness :
    ∃ outs, (DefaultRescaler envGray heapTs
        { swsCtx := some 1, width := 16, height := 16, pixfmt := 8 }
        [some 1, some 2, some 3] true).value = .ok (some outs, none) ∧
      outs.length = [some 1, some 2, some 3].length ∧
      ∀ (i : Nat) (a : Addr) (fr : Frame),
        [some 1, some 2, some 3][i]? = some (some a) → heapTs a = some fr →
        ∃ o : Frame, outs[i]? = some o ∧ o.Pts = fr.Pts ∧ o.PktDts = fr.PktDts :=
  C3_rescale_order_and_timestamps envGray heapTs
    { swsCtx := some 1, width := 16, height := 16, pixfmt := 8 }
    [some 1, some 2, some 3] true
    (fun i p h => by
      rcases i with _ | _ | _ | i <;> simp at h <;> subst h <;> rfl)
    (fun _ _ => ⟨_, rfl⟩)

/-- C5: `DefaultRescaler` returns an error exactly when the allocation fails at
an index `k` the loop reaches (every earlier allocation succeeded and every
earlier frame could be scaled), and an error always comes with a nil result.
When the allocation for a reached index `k` fails, the call returns that error,
and its events are exactly an allocation and a scale call for each index below
`k` followed by the failed allocation for `k`: the frames `0..k-1` and no others
were scaled, no allocation was attempted for an index above `k`, and no input
frame was released. -/
theorem C5_error_iff_alloc_fails (env : Env) (heap : Heap) (ctx : SwsCtx)
    (frames : List (Option Addr)) (rot : Bool) :
    ((∃ r e, (DefaultRescaler env heap ctx frames rot).value = .ok (r, some e)) ↔
      ∃ k err, k < frames.length ∧
        (∀ j, j < k → ∃ t1, (newTmp ctx).ImgAlloc env j = .ok t1) ∧
        (∀ j, j < k → ∃ p, frames[j]? = some p ∧ live heap p = true) ∧
        (newTmp ctx).ImgAlloc env k = .error err) ∧
    (∀ r e, (DefaultRescaler env heap ctx frames rot).value = .ok (r, some e) → r = none) ∧
    (∀ k err, k < frames.length →
      (∀ j, j < k → ∃ t1, (newTmp ctx).ImgAlloc env j = .ok t1) →
      (∀ j, j < k → ∃ p, frames[j]? = some p ∧ live heap p = true) →
      (newTmp ctx).ImgAlloc env k = .error err →
      (DefaultRescaler env heap ctx frames rot).value =
        .ok (none, some (.allocationTmpFrame err)) ∧
      (DefaultRescaler env heap ctx frames rot).log =
        okEvents (newTmp ctx) 0 k ++ [.imgAlloc k (newTmp ctx) false] ∧
      (∀ j, Event.scale j ∈ (DefaultRescaler env heap ctx frames rot).log ↔ j < k) ∧
      (∀ j t', Event.imgAlloc j t' true ∈ (DefaultRescaler env heap ctx frames rot).log ↔
        (j < k ∧ t' = newTmp ctx)) ∧
      (∀ j t' ok, Event.imgAlloc j t' ok ∈ (DefaultRescaler env heap ctx frames rot).log →
        j ≤ k) ∧
      (∀ a, Event.free a ∉ (DefaultRescaler env heap ctx frames rot).log)) := by
  refine ⟨⟨?_, ?_⟩, ?_, ?_⟩
  · rintro ⟨r, e, h⟩
    rcases DefaultRescaler_flow env heap ctx frames rot with
      ⟨_, _, outs, hv, _⟩ | ⟨k, err, hk, hpre, hlv, herr, _, _⟩ | ⟨k, _, _, _, _, _, hv, _⟩
    · rw [hv] at h
      cases h
    · exact ⟨k, err, hk, hpre, hlv, herr⟩
    · rw [hv] at h
      cases h
  · rintro ⟨k, err, hk, hpre, hlv, herr⟩
    exact ⟨none, _, (DefaultRescaler_fail env heap ctx frames rot k err hk hpre hlv herr).1⟩
  · intro r e h
    rcases DefaultRescaler_flow env heap ctx frames rot with
      ⟨_, _, outs, hv, _⟩ | ⟨k, err, _, _, _, _, hv, _⟩ | ⟨k, _, _, _, _, _, hv, _⟩
    · rw [hv] at h
      cases h
    · rw [hv] at h
      cases h
      rfl
    · rw [hv] at h
      cases h
  · intro k err hk hpre hlv herr
    obtain ⟨hv, hl⟩ := DefaultRescaler_fail env heap ctx frames rot k err hk hpre hlv herr
    refine ⟨hv, hl, ?_, ?_, ?_, ?_⟩
    · intro j
      rw [hl, List.mem_append, mem_okEvents]
      constructor
      · rintro (⟨j', _, h2, h3 | h3⟩ | h3)
        · cases h3
        · cases h3
          omega
        · simp at h3
      · intro hj
        exact Or.inl ⟨j, by omega, by omega, Or.inr rfl⟩
    · intro j t'
      rw [hl, List.mem_append, mem_okEvents]
      constructor
      · rintro (⟨j', _, h2, h3 | h3⟩ | h3)
        · cases h3
          exact ⟨by omega, rfl⟩
        · cases h3
        · simp at h3
      · rintro ⟨hj, rfl⟩
        exact Or.inl ⟨j, by omega, by omega, Or.inl rfl⟩
    · intro j t' ok hmem
      rw [hl, List.mem_append, mem_okEvents] at hmem
      rcases hmem with ⟨j', _, h2, h3 | h3⟩ | h3
      · cases h3
        omega
      · cases h3
      · simp only [List.mem_singleton] at h3
        cases h3
        exact Nat.le_refl _
    · intro a hmem
      rw [hl, List.mem_append] at hmem
      rcases hmem with h | h
      · exact free_not_ok _ _ _ _ h
      · simp at h

/-- C5 on four frames when the allocation for index 2 fails: the run returns
the allocation error with a nil result after scaling frames 0 and 1. -/
theorem C5_error_iff_alloc_fails_witness :
    (DefaultRescaler envFailAt2 heapTs { swsCtx := some 1, width := 2, height := 2, pixfmt := 26 }
        [some 1, some 2, some 3, some 4] false).value =
      .ok (none, some (.allocationTmpFrame "ENOMEM")) ∧
    ∀ j, Event.scale j ∈
        (DefaultRescaler envFailAt2 heapTs
          { swsCtx := some 1, width := 2, height := 2, pixfmt := 26 }
          [some 1, some 2, some 3, some 4] false).log ↔ j < 2 :=
  ⟨((C5_error_iff_alloc_fails envFailAt2 heapTs
      { swsCtx := some 1, width := 2, height := 2, pixfmt := 26 }
      [some 1, some 2, some 3, some 4] false).2.2 2 "ENOMEM" (by decide)
      (fun j hj => by
        rcases j with _ | _ | j
        · exact ⟨_, rfl⟩
        · exact ⟨_, rfl⟩
        · omega)
      (fun j hj => by
        rcases j with _ | _ | j
        · exact ⟨some 1, rfl, rfl⟩
        · exact ⟨some 2, rfl, rfl⟩
        · omega)
      rfl).1,
   ((C5_error_iff_alloc_fails envFailAt2 heapTs
      { swsCtx := some 1, width := 2, height := 2, pixfmt := 26 }
      [some 1, some 2, some 3, some 4] false).2.2 2 "ENOMEM" (by decide)
      (fun j hj => by
        rcases j with _ | _ | j
        · exact ⟨_, rfl⟩
        · exact ⟨_, rfl⟩
        · omega)
      (fun j hj => by
        rcases j with _ | _ | j
        · exact ⟨some 1, rfl, rfl⟩
        · exact ⟨some 2, rfl, rfl⟩
        · omega)
      rfl).2.2.1⟩

/-- C8 as stated fails: with every allocation succeeding, on the list that holds
the same non-nil frame twice `Free` is called on that frame twice; and on the
list that holds one non-nil frame whose `avFrame` is nil, `Scale` panics and the
frame is not released. -/
theorem C8_counterexample_same_frame_twice :
    (∀ k f, ∃ plane, envRgba.imgAlloc k f = .ok plane) ∧
    (DefaultRescaler envRgba heapTs { swsCtx := some 1, width := 2, height := 2, pixfmt := 26 }
      [some 1, some 1] false).log.count (.free 1) = 2 ∧
    heapTs 0 = none ∧
    (DefaultRescaler envRgba heapTs { swsCtx := some 1, width := 2, height := 2, pixfmt := 26 }
      [some 0] false).value = .error .nilDeref ∧
    Event.free 0 ∉
      (DefaultRescaler envRgba heapTs { swsCtx := some 1, width := 2, height := 2, pixfmt := 26 }
        [some 0] false).log := by
  refine ⟨fun _ _ => ⟨_, rfl⟩, ?_, by rfl, by rfl, ?_⟩
  · have h : (DefaultRescaler envRgba heapTs
        { swsCtx := some 1, width := 2, height := 2, pixfmt := 26 }
        [some 1, some 1] false).log =
        okEvents (newTmp { swsCtx := some 1, width := 2, height := 2, pixfmt := 26 }) 0 2 ++
          [.free 1, .free 1] := by rfl
    rw [h, List.count_append, count_free_okEvents]
    simp
  · have h : (DefaultRescaler envRgba heapTs
        { swsCtx := some 1, width := 2, height := 2, pixfmt := 26 }
        [some 0] false).log =
        [.imgAlloc 0 (newTmp { swsCtx := some 1, width := 2, height := 2, pixfmt := 26 })
          true] := by rfl
    rw [h]
    simp

/-- C8, amended: for every list of pairwise distinct input frames that are
non-nil and have a non-nil `avFrame`, when every allocation succeeds, the events
of the run are the allocation and scale call of every index followed by `Free`
on the input frames in order: every input frame is released exactly once, and
only after all of them have been scaled.  In general `Free` is called on a frame
once for every position that holds it.  In any run in which the allocation
fails at a reached index no input frame is released. -/
theorem C8_inputs_released_once (env : Env) (heap : Heap) (ctx : SwsCtx)
    (frames : List (Option Addr)) (rot : Bool)
    (hLive : ∀ (i : Nat) (p : Option Addr), frames[i]? = some p → live heap p = true)
    (hNodup : frames.Nodup)
    (hA : ∀ k, k < frames.length → ∃ t1, (newTmp ctx).ImgAlloc env k = .ok t1) :
    (DefaultRescaler env heap ctx frames rot).log =
        okEvents (newTmp ctx) 0 frames.length ++ freeEvents frames ∧
    (∀ a, some a ∈ frames →
      (DefaultRescaler env heap ctx frames rot).log.count (.free a) = 1) ∧
    (∀ i, i < frames.length → Event.scale i ∈ okEvents (newTmp ctx) 0 frames.length) ∧
    (∀ a, Event.free a ∉ okEvents (newTmp ctx) 0 frames.length) ∧
    (∀ e, e ∈ freeEvents frames → ∃ a, e = .free a ∧ some a ∈ frames) ∧
    (∀ (frames2 : List (Option Addr)) (a : Addr),
      (∀ (i : Nat) (p : Option Addr), frames2[i]? = some p → live heap p = true) →
      (∀ k, k < frames2.length → ∃ t1, (newTmp ctx).ImgAlloc env k = .ok t1) →
      (DefaultRescaler env heap ctx frames2 rot).log.count (.free a) =
        frames2.count (some a)) ∧
    (∀ (frames2 : List (Option Addr)) (k : Nat) (err : String), k < frames2.length →
      (∀ j, j < k → ∃ t1, (newTmp ctx).ImgAlloc env j = .ok t1) →
      (∀ j, j < k → ∃ p, frames2[j]? = some p ∧ live heap p = true) →
      (newTmp ctx).ImgAlloc env k = .error err →
      ∀ a, Event.free a ∉ (DefaultRescaler env heap ctx frames2 rot).log) := by
  have hlogOf : ∀ (fs : List (Option Addr)),
      (∀ (i : Nat) (p : Option Addr), fs[i]? = some p → live heap p = true) →
      (∀ k, k < fs.length → ∃ t1, (newTmp ctx).ImgAlloc env k = .ok t1) →
      (DefaultRescaler env heap ctx fs rot).log =
        okEvents (newTmp ctx) 0 fs.length ++ freeEvents fs := by
    intro fs hL hAl
    rcases DefaultRescaler_flow env heap ctx fs rot with
      ⟨_, _, outs, _, hl, _⟩ | ⟨k, err, hk, _, _, herr, _, _⟩ |
        ⟨k, hk, _, _, _, hbad, _, _⟩
    · exact hl
    · obtain ⟨t1, ht1⟩ := hAl k hk
      rw [herr] at ht1
      cases ht1
    · obtain ⟨p, hp, hpl⟩ := hbad
      rw [hL k p hp] at hpl
      cases hpl
  have hcount : ∀ (fs : List (Option Addr)) (a : Addr),
      (∀ (i : Nat) (p : Option Addr), fs[i]? = some p → live heap p = true) →
      (∀ k, k < fs.length → ∃ t1, (newTmp ctx).ImgAlloc env k = .ok t1) →
      (DefaultRescaler env heap ctx fs rot).log.count (.free a) = fs.count (some a) := by
    intro fs a hL hAl
    rw [hlogOf fs hL hAl, List.count_append, count_free_okEvents, count_free_freeEvents]
    simp
  refine ⟨hlogOf frames hLive hA, ?_, ?_, ?_, ?_, hcount, ?_⟩
  · intro a ha
    rw [hcount frames a hLive hA]
    exact count_some_nodup a frames hNodup ha
  · intro i hi
    rw [mem_okEvents]
    exact ⟨i, by omega, by omega, Or.inr rfl⟩
  · intro a
    exact free_not_ok _ _ _ _
  · intro e he
    exact mem_freeEvents e frames he
  · intro frames2 k err hk hpre hlv herr a hmem
    obtain ⟨_, hl⟩ := DefaultRescaler_fail env heap ctx frames2 rot k err hk hpre hlv herr
    rw [hl, List.mem_append] at hmem
    rcases hmem with h | h
    · exact free_not_ok _ _ _ _ h
    · simp at h

/-- C8, amended, on three distinct frames with rotation: three allocations and
scale calls, then `Free` on the frames at addresses 1, 2, 3. -/
theorem C8_inputs_released_once_witness :
    (DefaultRescaler envRgba heapTs { swsCtx := some 1, width := 2, height := 2, pixfmt := 26 }
        [some 1, some 2, some 3] true).log =
      okEvents (newTmp { swsCtx := some 1, width := 2, height := 2, pixfmt := 26 }) 0 3 ++
        [.free 1, .free 2, .free 3] :=
  (C8_inputs_released_once envRgba heapTs
    { swsCtx := some 1, width := 2, height := 2, pixfmt := 26 }
    [some 1, some 2, some 3] true
    (fun i p h => by
      rcases i with _ | _ | _ | i <;> simp at h <;> subst h <;> rfl)
    (by decide)
    (fun _ _ => ⟨_, rfl⟩)).1

end Gmf
